import Mathlib

/-!
# usyslog: a shallow embedding of the incremental syslog parser

Source: `src/include/usyslog.h` and `src/include/usyslog.c`.

Conventions of the embedding.

* A byte (`char`) is a `Nat`; input slices and payloads are `List Nat`.
  All the source's byte tests compare against ASCII constants, so the
  signedness of `char` plays no part.
* `unsigned char flags : 3` is a `Fin 8`: every store into the bit-field is
  reduced modulo `2^3`, as C prescribes for an unsigned bit-field.
* `unsigned char error` is a `Nat`, every store reduced modulo `2^8`.
* `uint64_t` and `size_t` arithmetic is `Nat` arithmetic modulo `2^64`.
* Callbacks are functions that observe the parser (and the payload) and
  return a C `int`; each invocation is also recorded in an event list.
* Two values are indeterminate in the source: the local `action` of
  `uslg_parser_exec` before its first assignment, and the value of a call
  of `sd_value`, whose body has no `return` statement.  Both are supplied
  by a record `Undef`, so that a statement can quantify over them.
* The driver loop carries fuel: `none` means the fuel ran out.  The slice
  from `d_index` on stands for the pair `data + d_index`, `length - d_index`;
  slices are taken shorter than `INT_MAX`, so that the `int d_index` does
  not overflow.
* The struct `syslog_parser` is named `syslog_parser_t` here.
-/

namespace USyslog

/-! ## Enumerations and constants (`usyslog.h`, `usyslog.c`) -/

/-- Flag `F_RFC_3164 = 1 << 0`. -/
def F_RFC_3164 : Nat := 1
/-- Flag `F_RFC_5424 = 1 << 1`. -/
def F_RFC_5424 : Nat := 2
/-- Flag `F_ESCAPED = 1 << 2`. -/
def F_ESCAPED : Nat := 4
/-- Flag `F_COUNT_OCTETS = 1 << 3`. -/
def F_COUNT_OCTETS : Nat := 8

/-- Error code `SLERR_UNCAUGHT`. -/
def SLERR_UNCAUGHT : Int := 1
/-- Error code `SLERR_BAD_OCTET_COUNT`. -/
def SLERR_BAD_OCTET_COUNT : Int := 2
/-- Error code `SLERR_BAD_PRIORITY_START`. -/
def SLERR_BAD_PRIORITY_START : Int := 3
/-- Error code `SLERR_BAD_PRIORITY`. -/
def SLERR_BAD_PRIORITY : Int := 3
/-- Error code `SLERR_BAD_VERSION`. -/
def SLERR_BAD_VERSION : Int := 4
/-- Error code `SLERR_BAD_SD_START`. -/
def SLERR_BAD_SD_START : Int := 5
/-- Error code `SLERR_BAD_STATE`. -/
def SLERR_BAD_STATE : Int := 100
/-- Error code `SLERR_BUFFER_OVERFLOW`. -/
def SLERR_BUFFER_OVERFLOW : Int := 1000

/-- Capacity `MAX_BUFFER_SIZE = RFC5424_MAX_BYTES * 32`. -/
def MAX_BUFFER_SIZE : Nat := 2048 * 32

/-- Modulus of `uint64_t` and of `size_t`. -/
def U64 : Nat := 18446744073709551616

/-- Constant `ULONG_MAX` on an LP64 target. -/
def ULONG_MAX : Nat := 18446744073709551615

/-- The enumeration `token_state`. -/
inductive token_state where
  | ts_before
  | ts_read
deriving DecidableEq

/-- The enumeration `syslog_state`. -/
inductive syslog_state where
  | s_msg_start
  | s_octet_count
  | s_priority_start
  | s_priority
  | s_version
  | s_timestamp
  | s_hostname
  | s_appname
  | s_procid
  | s_msgid
  | s_sd_start
  | s_sd_element
  | s_sd_field
  | s_sd_field_end
  | s_sd_value_begin
  | s_sd_value
  | s_sd_value_end
  | s_sd_end
  | s_message
  | s_msg_complete
deriving DecidableEq

open token_state syslog_state

/-- Directive `rv_advance` of `syslog_retval`. -/
def rv_advance : Int := 0
/-- Directive `rv_rehash` of `syslog_retval`. -/
def rv_rehash : Int := 1
/-- Directive `rv_inc_index` of `syslog_retval`. -/
def rv_inc_index : Int := 2
/-- Directive `rv_error` of `syslog_retval`. -/
def rv_error : Int := 3

/-! ## Byte classes -/

/-- Macro `IS_WS`. -/
def IS_WS (c : Nat) : Bool := c == 32 || c == 9 || c == 13 || c == 10

/-- Macro `LOWER`: `(unsigned char)(c | 0x20)`. -/
def LOWER (c : Nat) : Nat := (c ||| 32) % 256

/-- Macro `IS_ALPHA`. -/
def IS_ALPHA (c : Nat) : Bool := decide (97 ≤ LOWER c) && decide (LOWER c ≤ 122)

/-- Macro `IS_NUM`. -/
def IS_NUM (c : Nat) : Bool := decide (48 ≤ c) && decide (c ≤ 57)

/-- Macro `IS_ALPHANUM`. -/
def IS_ALPHANUM (c : Nat) : Bool := IS_ALPHA c || IS_NUM c

/-- The bytes of an ASCII string. -/
def ascii (s : String) : List Nat := s.toList.map Char.toNat

/-! ## Data model -/

/-- The struct `pbuffer`: the byte array, the write cursor and the capacity. -/
structure pbuffer where
  bytes : List Nat
  position : Nat
  size : Nat
deriving DecidableEq

/-- The struct `syslog_msg_head`; a `char *` field is `none` when `NULL`. -/
structure syslog_msg_head where
  pri : Nat
  version : Nat
  timestamp : Option (List Nat)
  timestamp_len : Nat
  hostname : Option (List Nat)
  hostname_len : Nat
  appname : Option (List Nat)
  appname_len : Nat
  procid : Option (List Nat)
  procid_len : Nat
  msgid : Option (List Nat)
  msgid_len : Nat
deriving DecidableEq

/-- The struct `syslog_parser`, here `syslog_parser_t` (without `app_data`, which the
parser never reads). -/
structure syslog_parser_t where
  flags : Fin 8
  token_state : token_state
  state : syslog_state
  error : Nat
  msg_head : syslog_msg_head
  message_length : Nat
  read : Nat
  buffer : pbuffer
deriving DecidableEq

/-- The struct `syslog_parser_settings`: the callbacks, as observers returning a C `int`. -/
structure syslog_parser_settings where
  on_msg_begin : syslog_parser_t → Int
  on_msg_head : syslog_parser_t → Int
  on_sd_element : syslog_parser_t → List Nat → Int
  on_sd_field : syslog_parser_t → List Nat → Int
  on_sd_value : syslog_parser_t → List Nat → Int
  on_msg : syslog_parser_t → List Nat → Int
  on_msg_complete : syslog_parser_t → Int

/-- Callbacks that all return 0. -/
def settings_zero : syslog_parser_settings :=
  { on_msg_begin := fun _ => 0
    on_msg_head := fun _ => 0
    on_sd_element := fun _ _ => 0
    on_sd_field := fun _ _ => 0
    on_sd_value := fun _ _ => 0
    on_msg := fun _ _ => 0
    on_msg_complete := fun _ => 0 }

/-- One callback invocation: which callback fired and what it was handed. -/
inductive Event where
  | msg_head (head : syslog_msg_head)
  | sd_element (payload : List Nat)
  | sd_field (payload : List Nat)
  | sd_value (payload : List Nat)
  | msg (payload : List Nat)
  | msg_complete
deriving DecidableEq

/-- The values the source leaves indeterminate: `action0` is what the local
`action` of `uslg_parser_exec` holds before its first assignment, and
`sd_value_result parser nb` is what a call of `sd_value`, which has no
`return` statement, yields to its caller. -/
structure Undef where
  action0 : Int
  sd_value_result : syslog_parser_t → Nat → Int

/-- Conversion of a C `int` to `unsigned char`. -/
def to_uchar (r : Int) : Nat := (r % 256).toNat

/-- Store into the three-bit bit-field `flags`. -/
def to_flags (n : Nat) : Fin 8 := ⟨n % 8, Nat.mod_lt n (by decide)⟩

/-- What a state handler hands back to the driver: the parser, the
directive and the callbacks it invoked. -/
structure handled where
  parser : syslog_parser_t
  action : Int
  events : List Event

/-! ## Accumulation buffer -/

/-- Function `new_pbuffer` (successful allocation); the array cells, which
`malloc` leaves indeterminate, are shown as 0. -/
def new_pbuffer (size : Nat) : pbuffer :=
  { bytes := List.replicate size 0, position := 0, size := size }

/-- Function `reset_pbuffer`. -/
def reset_pbuffer (buffer : pbuffer) : pbuffer :=
  { buffer with position := 0 }

/-- Function `store_byte_in_pbuffer`: the return code and the buffer afterwards. -/
def store_byte_in_pbuffer (byte : Nat) (dest : pbuffer) : Int × pbuffer :=
  if (dest.position + 1) % U64 < dest.size then
    (0, { dest with bytes := dest.bytes.set dest.position byte,
                    position := (dest.position + 1) % U64 })
  else
    (SLERR_BUFFER_OVERFLOW, dest)

/-- Function `copy_into_pbuffer`: `memcpy` to the start of the array, then
the cursor moves on by `length`. -/
def copy_into_pbuffer (source : List Nat) (dest : pbuffer) (length : Nat) : Int × pbuffer :=
  if (dest.position + length) % U64 < dest.size then
    (0, { dest with bytes := source.take length ++ dest.bytes.drop length,
                    position := (dest.position + length) % U64 })
  else
    (SLERR_BUFFER_OVERFLOW, dest)

/-- Function `copy_pbuffer`: a fresh copy of the first `position` bytes. -/
def copy_pbuffer (src : pbuffer) : List Nat := src.bytes.take src.position

/-- Function `copy_parser_buffer`. -/
def copy_parser_buffer (parser : syslog_parser_t) : List Nat := copy_pbuffer parser.buffer

/-- Function `reset_buffer`. -/
def reset_buffer (parser : syslog_parser_t) : syslog_parser_t :=
  { parser with buffer := reset_pbuffer parser.buffer }

/-- Function `store_byte`. -/
def store_byte (byte : Nat) (parser : syslog_parser_t) : Int × syslog_parser_t :=
  ((store_byte_in_pbuffer byte parser.buffer).1,
   { parser with buffer := (store_byte_in_pbuffer byte parser.buffer).2 })

/-! ## State changes -/

/-- Function `set_token_state`. -/
def set_token_state (parser : syslog_parser_t) (next_state : token_state) : syslog_parser_t :=
  { parser with token_state := next_state }

/-- Function `set_state`. -/
def set_state (parser : syslog_parser_t) (next_state : syslog_state) : syslog_parser_t :=
  set_token_state { parser with state := next_state } ts_before

/-- Conversion of a `size_t` to `int`: the low 32 bits, read as a signed number. -/
def to_int (n : Nat) : Int := (((n + 2147483648) % 4294967296 : Nat) : Int) - 2147483648

/-- Conversion of an `int` to `size_t`. -/
def to_size (i : Int) : Nat := (i % (U64 : Int)).toNat

/-- Function `set_str_field`: commit the buffer to the head field of the
current state.  The length goes through the local `int len`. -/
def set_str_field (parser : syslog_parser_t) : syslog_parser_t :=
  let value := copy_parser_buffer parser
  let len := to_size (to_int parser.buffer.position)
  let head := parser.msg_head
  let head1 :=
    match parser.state with
    | s_timestamp => { head with timestamp := some value, timestamp_len := len }
    | s_hostname => { head with hostname := some value, hostname_len := len }
    | s_appname => { head with appname := some value, appname_len := len }
    | s_procid => { head with procid := some value, procid_len := len }
    | s_msgid => { head with msgid := some value, msgid_len := len }
    | _ => head
  reset_buffer { parser with msg_head := head1 }

/-- Function `uslg_parser_reset`. -/
def uslg_parser_reset (parser : syslog_parser_t) : syslog_parser_t :=
  { parser with read := 0, error := 0, flags := 0, message_length := 0,
                state := s_msg_start, token_state := ts_before }

/-- The head model after `memset(..., 0, ...)`. -/
def msg_head_zero : syslog_msg_head :=
  { pri := 0, version := 0,
    timestamp := none, timestamp_len := 0,
    hostname := none, hostname_len := 0,
    appname := none, appname_len := 0,
    procid := none, procid_len := 0,
    msgid := none, msgid_len := 0 }

/-- Function `uslg_parser_init` (successful allocations): the parser it leaves. -/
def uslg_parser_init : syslog_parser_t :=
  uslg_parser_reset
    { flags := 0, token_state := ts_before, state := s_msg_start, error := 0,
      msg_head := msg_head_zero, message_length := 0, read := 0,
      buffer := new_pbuffer MAX_BUFFER_SIZE }

/-! ## Callback invocation -/

/-- Function `on_data_cb`: the callback sees the first `position` bytes of the buffer. -/
def on_data_payload (parser : syslog_parser_t) : List Nat :=
  parser.buffer.bytes.take parser.buffer.position

/-! ## State handlers -/

/-- The scan of `read_message`: the index at which its `for` loop stops,
the first line-feed or else the length. -/
def stop_index : List Nat → Nat
  | [] => 0
  | c :: rest => if c = 10 then 0 else stop_index rest + 1

/-- Function `read_message`; `data` is the slice from the current byte on. -/
def read_message (parser : syslog_parser_t) (settings : syslog_parser_settings)
    (data : List Nat) : handled :=
  if parser.flags.val &&& F_COUNT_OCTETS ≠ 0 then
    let n := if parser.message_length ≥ data.length then data.length else parser.message_length
    let parser1 := { parser with error := to_uchar (settings.on_msg parser (data.take n)),
                                 read := n }
    let parser2 := if parser1.message_length = 0 then set_state parser1 s_msg_complete else parser1
    { parser := parser2, action := rv_inc_index, events := [Event.msg (data.take n)] }
  else
    let stop_idx := stop_index data
    let parser1 := if stop_idx < data.length then set_state parser s_msg_complete else parser
    let parser2 := { parser1 with error := to_uchar (settings.on_msg parser1 (data.take stop_idx)),
                                  read := stop_idx }
    { parser := parser2, action := rv_inc_index, events := [Event.msg (data.take stop_idx)] }

/-- Function `sd_value`.  The body computes `retval` but never returns it:
the value the caller receives is `u.sd_value_result`. -/
def sd_value (u : Undef) (parser : syslog_parser_t) (settings : syslog_parser_settings)
    (nb : Nat) : handled :=
  let body : handled :=
    if nb = 92 then
      { parser := { parser with flags := to_flags (parser.flags.val ||| F_ESCAPED) },
        action := rv_advance, events := [] }
    else if nb = 34 then
      if parser.flags.val &&& F_ESCAPED ≠ 0 then
        { parser := { parser with flags := to_flags (parser.flags.val ||| F_ESCAPED) },
          action := rv_advance, events := [] }
      else
        { parser := set_state parser s_sd_field,
          action := settings.on_sd_value parser (on_data_payload parser),
          events := [Event.sd_value (on_data_payload parser)] }
    else
      { parser := (store_byte nb parser).2, action := rv_advance, events := [] }
  { parser := body.parser, action := u.sd_value_result body.parser nb, events := body.events }

/-- Function `sd_value_begin`. -/
def sd_value_begin (parser : syslog_parser_t) (nb : Nat) : handled :=
  if nb = 34 then
    { parser := set_state parser s_sd_value, action := rv_advance, events := [] }
  else
    { parser := parser, action := rv_advance, events := [] }

/-- Function `sd_field_end`. -/
def sd_field_end (parser : syslog_parser_t) (nb : Nat) : handled :=
  if nb = 61 then
    { parser := set_state parser s_sd_value_begin, action := rv_advance, events := [] }
  else
    { parser := parser, action := rv_advance, events := [] }

/-- Function `sd_field`. -/
def sd_field (parser : syslog_parser_t) (settings : syslog_parser_settings) (nb : Nat) :
    handled :=
  if IS_ALPHANUM nb then
    { parser := (store_byte nb parser).2, action := rv_advance, events := [] }
  else
    let retval := settings.on_sd_field parser (on_data_payload parser)
    let parser1 :=
      if nb = 93 then set_state parser s_sd_start
      else if nb = 61 then set_state parser s_sd_value_begin
      else set_state parser s_sd_field_end
    { parser := parser1, action := retval, events := [Event.sd_field (on_data_payload parser)] }

/-- Function `sd_element`. -/
def sd_element (parser : syslog_parser_t) (settings : syslog_parser_settings) (nb : Nat) :
    handled :=
  if !IS_WS nb then
    { parser := (store_byte nb parser).2, action := rv_advance, events := [] }
  else
    { parser := set_state parser s_sd_field,
      action := settings.on_sd_element parser (on_data_payload parser),
      events := [Event.sd_element (on_data_payload parser)] }

/-- Function `sd_start`. -/
def sd_start (parser : syslog_parser_t) (settings : syslog_parser_settings) (nb : Nat) :
    handled :=
  let parser1 := { parser with error := to_uchar (settings.on_msg_head parser) }
  let ev := [Event.msg_head parser.msg_head]
  if nb = 91 then
    { parser := set_state parser1 s_sd_element, action := rv_advance, events := ev }
  else if nb = 45 then
    { parser := set_state parser1 s_message, action := rv_advance, events := ev }
  else
    { parser := set_state parser1 s_message, action := rv_rehash, events := ev }

/-- Function `parse_msg_head_part`. -/
def parse_msg_head_part (parser : syslog_parser_t) (next_state : syslog_state) (nb : Nat) :
    handled :=
  if !IS_WS nb then
    { parser := (store_byte nb parser).2, action := rv_advance, events := [] }
  else
    { parser := set_state (set_str_field parser) next_state, action := rv_advance, events := [] }

/-- The `uint8_t` accumulation shared by `version` and `priority`:
`n = message_length; n *= 10; n += nb - 48`, each step reduced modulo 256. -/
def accumulate_u8 (message_length nb : Nat) : Nat :=
  (((message_length % 256) * 10) % 256 + (nb - 48)) % 256

/-- Function `version`. -/
def version (parser : syslog_parser_t) (nb : Nat) : handled :=
  if IS_NUM nb then
    let nversion := accumulate_u8 parser.message_length nb
    if nversion < parser.msg_head.version ∨ nversion > 999 then
      { parser := { parser with error := to_uchar SLERR_BAD_VERSION },
        action := rv_advance, events := [] }
    else
      { parser := { parser with msg_head := { parser.msg_head with version := nversion } },
        action := rv_advance, events := [] }
  else
    { parser := set_state parser s_timestamp, action := rv_advance, events := [] }

/-- Function `priority`. -/
def priority (parser : syslog_parser_t) (nb : Nat) : handled :=
  if IS_NUM nb then
    let npri := accumulate_u8 parser.message_length nb
    if npri < parser.msg_head.pri ∨ npri > 999 then
      { parser := { parser with error := to_uchar SLERR_BAD_PRIORITY },
        action := rv_advance, events := [] }
    else
      { parser := { parser with msg_head := { parser.msg_head with pri := npri } },
        action := rv_advance, events := [] }
  else if nb = 62 then
    { parser := set_state parser s_version, action := rv_advance, events := [] }
  else
    { parser := { parser with error := to_uchar SLERR_BAD_PRIORITY },
      action := rv_advance, events := [] }

/-- Function `priority_start`. -/
def priority_start (parser : syslog_parser_t) (nb : Nat) : handled :=
  if nb = 60 then
    { parser := set_state parser s_priority, action := rv_advance, events := [] }
  else
    { parser := { parser with error := to_uchar SLERR_BAD_PRIORITY_START },
      action := rv_advance, events := [] }

/-- Function `octet_count`. -/
def octet_count (parser : syslog_parser_t) (nb : Nat) : handled :=
  if IS_NUM nb then
    let mlength := ((parser.message_length * 10) % U64 + (nb - 48)) % U64
    if mlength < parser.message_length ∨ mlength = ULONG_MAX then
      { parser := { parser with error := to_uchar SLERR_BAD_OCTET_COUNT },
        action := rv_advance, events := [] }
    else
      { parser := { parser with message_length := mlength },
        action := rv_advance, events := [] }
  else
    { parser := set_state parser s_priority_start, action := rv_advance, events := [] }

/-- Function `msg_start`. -/
def msg_start (parser : syslog_parser_t) (nb : Nat) : handled :=
  if IS_NUM nb then
    { parser := set_state { parser with flags := to_flags (parser.flags.val ||| F_COUNT_OCTETS) }
                  s_octet_count,
      action := rv_rehash, events := [] }
  else
    { parser := set_state parser s_priority, action := rv_rehash, events := [] }

/-! ## The driver `uslg_parser_exec` -/

/-- The `switch (parser->state)` of `uslg_parser_exec`.  `data` is the
slice from the current byte on, `action` the directive left by the previous
iteration, which the `default` branch does not overwrite. -/
def dispatch (u : Undef) (settings : syslog_parser_settings) (parser : syslog_parser_t)
    (next_byte : Nat) (data : List Nat) (action : Int) : handled :=
  match parser.state with
  | s_msg_start => msg_start parser next_byte
  | s_octet_count => octet_count parser next_byte
  | s_priority_start => priority_start parser next_byte
  | s_priority => priority parser next_byte
  | s_version => version parser next_byte
  | s_timestamp => parse_msg_head_part parser s_hostname next_byte
  | s_hostname => parse_msg_head_part parser s_appname next_byte
  | s_appname => parse_msg_head_part parser s_procid next_byte
  | s_procid => parse_msg_head_part parser s_msgid next_byte
  | s_msgid => parse_msg_head_part parser s_sd_start next_byte
  | s_sd_start => sd_start parser settings next_byte
  | s_sd_element => sd_element parser settings next_byte
  | s_sd_field => sd_field parser settings next_byte
  | s_sd_field_end => sd_field_end parser next_byte
  | s_sd_value_begin => sd_value_begin parser next_byte
  | s_sd_value => sd_value u parser settings next_byte
  | s_message => read_message parser settings data
  | _ => { parser := { parser with error := to_uchar SLERR_BAD_STATE },
           action := action, events := [] }

/-- What the `switch (action)` of `uslg_parser_exec` decides. -/
structure after where
  parser : syslog_parser_t
  events : List Event
  rest : List Nat
  exit_exec : Bool

/-- The `switch (action)` of `uslg_parser_exec` together with the loop
increment: the parser, the callbacks fired, the slice that remains and
whether the directive was unknown.  `data` is the slice from the current
byte on. -/
def apply_action (settings : syslog_parser_settings) (parser : syslog_parser_t)
    (action : Int) (data : List Nat) : after :=
  if action = rv_advance then
    if parser.state = s_msg_complete then
      { parser := uslg_parser_reset
          { parser with error := to_uchar (settings.on_msg_complete parser) },
        events := [Event.msg_complete], rest := data.drop 1, exit_exec := false }
    else
      { parser := parser, events := [], rest := data.drop 1, exit_exec := false }
  else if action = rv_inc_index then
    { parser := parser, events := [], rest := data.drop (parser.read + 1), exit_exec := false }
  else if action = rv_rehash then
    { parser := parser, events := [], rest := data, exit_exec := false }
  else
    { parser := parser, events := [], rest := data.drop 1, exit_exec := true }

/-- The token-state test at the head of the loop body: this byte is skipped
by `continue`. -/
def skips (parser : syslog_parser_t) (next_byte : Nat) : Bool :=
  decide (parser.token_state = ts_before) && (next_byte == 32 || next_byte == 9)

/-- The parser after a skipped separator. -/
def skip_byte (parser : syslog_parser_t) : syslog_parser_t :=
  if parser.flags.val &&& F_COUNT_OCTETS ≠ 0 then
    { parser with message_length := (parser.message_length + U64 - 1) % U64 }
  else parser

/-- The parser as the state switch receives it: a byte that is not skipped
while `ts_before` sets the token state to `ts_read`. -/
def enter_token (parser : syslog_parser_t) : syslog_parser_t :=
  if parser.token_state = ts_before then set_token_state parser ts_read else parser

/-- One pass through the loop body for a byte that is not skipped: the
parser afterwards, the callbacks fired, the slice that remains after the
loop increment, the local `action` and the local `exit_exec`. -/
structure iteration where
  parser : syslog_parser_t
  events : List Event
  rest : List Nat
  action : Int
  exit_exec : Bool

/-- The loop body of `uslg_parser_exec` from the state switch on: the
handler runs, a non-zero `error` sets `exit_exec`, then the directive is
applied. -/
def loop_body (u : Undef) (settings : syslog_parser_settings) (parser : syslog_parser_t)
    (next_byte : Nat) (tl : List Nat) (action : Int) : iteration :=
  let h := dispatch u settings (enter_token parser) next_byte (next_byte :: tl) action
  let a := apply_action settings h.parser h.action (next_byte :: tl)
  { parser := a.parser, events := h.events ++ a.events, rest := a.rest, action := h.action,
    exit_exec := decide (h.parser.error ≠ 0) || a.exit_exec }

/-- What a call of `uslg_parser_exec` leaves: the parser (its `error` field
is the return value), the callbacks fired in order, and for each byte handed
to the state switch the number of bytes of the slice that remained, that
byte included, together with the state whose `case` received it. -/
structure exec_result where
  parser : syslog_parser_t
  events : List Event
  dispatched : List (Nat × syslog_state)

/-- Prefix the events and the dispatch of one iteration to the rest of the run. -/
def exec_result.after_iteration (evs : List Event) (n : Nat × syslog_state) (r : exec_result) :
    exec_result :=
  { parser := r.parser, events := evs ++ r.events, dispatched := n :: r.dispatched }

/-- The `for` loop of `uslg_parser_exec`.  `data` is the slice from
`d_index` on and `action` the local variable of that name. -/
def exec_loop (u : Undef) (settings : syslog_parser_settings) :
    Nat → syslog_parser_t → List Nat → Int → Option exec_result
  | 0, _, _, _ => none
  | _ + 1, parser, [], _ => some { parser := parser, events := [], dispatched := [] }
  | fuel + 1, parser, next_byte :: tl, action =>
    if skips parser next_byte then
      exec_loop u settings fuel (skip_byte parser) tl action
    else
      let it := loop_body u settings parser next_byte tl action
      if it.exit_exec then
        some { parser := it.parser, events := it.events,
               dispatched := [(tl.length + 1, parser.state)] }
      else
        (exec_loop u settings fuel it.parser it.rest it.action).map
          (exec_result.after_iteration it.events (tl.length + 1, parser.state))

/-- Where the loop of `uslg_parser_exec` stands after some iterations: the
parser, the slice from `d_index` on, the local `action`, and the callbacks
and dispatches so far. -/
structure loop_state where
  parser : syslog_parser_t
  rest : List Nat
  action : Int
  events : List Event
  dispatched : List (Nat × syslog_state)

/-- Prefix the events and the dispatch of one iteration to a later loop state. -/
def loop_state.after_iteration (evs : List Event) (n : Nat × syslog_state) (st : loop_state) :
    loop_state :=
  { st with events := evs ++ st.events, dispatched := n :: st.dispatched }

/-- The first `n` iterations of the loop of `uslg_parser_exec`: the loop
state they lead to, or `none` when the loop ends before. -/
def loop_steps (u : Undef) (settings : syslog_parser_settings) :
    Nat → syslog_parser_t → List Nat → Int → Option loop_state
  | 0, parser, data, action =>
    some { parser := parser, rest := data, action := action, events := [], dispatched := [] }
  | _ + 1, _, [], _ => none
  | n + 1, parser, next_byte :: tl, action =>
    if skips parser next_byte then
      loop_steps u settings n (skip_byte parser) tl action
    else
      let it := loop_body u settings parser next_byte tl action
      if it.exit_exec then none
      else
        (loop_steps u settings n it.parser it.rest it.action).map
          (loop_state.after_iteration it.events (tl.length + 1, parser.state))

/-- Function `uslg_parser_exec`, with fuel for its loop. -/
def uslg_parser_exec (fuel : Nat) (u : Undef) (settings : syslog_parser_settings)
    (parser : syslog_parser_t) (data : List Nat) : Option exec_result :=
  exec_loop u settings fuel parser data u.action0

/-- The `int` that `uslg_parser_exec` returns. -/
def exec_result.retval (r : exec_result) : Int := (r.parser.error : Int)

/-! ## Notions used in the statements -/

/-- The buffer invariant: the write cursor is within the capacity. -/
def pbuffer_ok (b : pbuffer) : Prop := b.position ≤ b.size

instance (b : pbuffer) : Decidable (pbuffer_ok b) :=
  inferInstanceAs (Decidable (b.position ≤ b.size))

/-- The states for which the state switch of `uslg_parser_exec` has a `case`. -/
def has_handler (st : syslog_state) : Bool :=
  match st with
  | s_sd_value_end => false
  | s_sd_end => false
  | s_msg_complete => false
  | _ => true

/-- The indeterminate values chosen as the directive `rv_advance`. -/
def undef_advance : Undef := { action0 := rv_advance, sd_value_result := fun _ _ => rv_advance }

/-- The head-token states and the structured-data state that accumulate
every byte that is not whitespace. -/
def accumulates_token (st : syslog_state) : Bool :=
  match st with
  | s_timestamp => true
  | s_hostname => true
  | s_appname => true
  | s_procid => true
  | s_msgid => true
  | s_sd_element => true
  | _ => false

/-- The parser standing at structured-data-start with an empty buffer. -/
def parser_at_sd_start : syslog_parser_t := { uslg_parser_init with state := s_sd_start }

/-- Successive calls of `uslg_parser_exec` on one parser, one call per
slice, with no reset by the caller in between: the parser after the last
call. -/
def exec_calls (fuel : Nat) (u : Undef) (settings : syslog_parser_settings) :
    syslog_parser_t → List (List Nat) → Option syslog_parser_t
  | parser, [] => some parser
  | parser, slice :: slices =>
    match uslg_parser_exec fuel u settings parser slice with
    | none => none
    | some r => exec_calls fuel u settings r.parser slices

/-- The event list with every run of consecutive body callbacks replaced
by one body callback that carries the concatenation of their payloads. -/
def merge_chunks : List Event → List Event
  | [] => []
  | Event.msg x :: rest =>
    match merge_chunks rest with
    | Event.msg y :: rest1 => Event.msg (x ++ y) :: rest1
    | merged => Event.msg x :: merged
  | e :: rest => e :: merge_chunks rest

/-- Two parsers agree in state, token state, flags, declared length, head
model, buffer and error: in everything but the `read` counter. -/
def same_parse_state (p q : syslog_parser_t) : Prop :=
  p.state = q.state ∧ p.token_state = q.token_state ∧ p.flags = q.flags ∧
  p.message_length = q.message_length ∧ p.msg_head = q.msg_head ∧ p.buffer = q.buffer ∧
  p.error = q.error

instance (p q : syslog_parser_t) : Decidable (same_parse_state p q) :=
  inferInstanceAs (Decidable (p.state = q.state ∧ p.token_state = q.token_state ∧
    p.flags = q.flags ∧ p.message_length = q.message_length ∧ p.msg_head = q.msg_head ∧
    p.buffer = q.buffer ∧ p.error = q.error))

/-- Callbacks that return 0, except that the element callback returns `rv_error`. -/
def settings_element_fails : syslog_parser_settings :=
  { settings_zero with on_sd_element := fun _ _ => rv_error }

/-- The freshly initialised parser put in the priority-start state. -/
def parser_at_priority_start : syslog_parser_t :=
  { uslg_parser_init with state := s_priority_start }

/-- The freshly initialised parser put in the structured-data-value state. -/
def parser_at_sd_value : syslog_parser_t := { uslg_parser_init with state := s_sd_value }

/-- The decimal value of a string of digit bytes, continuing from `v`. -/
def decimal_from (v : Nat) (digits : List Nat) : Nat :=
  digits.foldl (fun n d => n * 10 + (d - 48)) v

/-- The decimal value of a string of digit bytes. -/
def decimal_value (digits : List Nat) : Nat := decimal_from 0 digits

/-- The freshly initialised parser put in the octet-count state. -/
def parser_at_octet_count : syslog_parser_t := { uslg_parser_init with state := s_octet_count }

/-- The five head-token cases of the state switch of `uslg_parser_exec`:
the state that `parse_msg_head_part` is told to go to next. -/
def head_token_next : syslog_state → Option syslog_state
  | s_timestamp => some s_hostname
  | s_hostname => some s_appname
  | s_appname => some s_procid
  | s_procid => some s_msgid
  | s_msgid => some s_sd_start
  | _ => none

/-- The freshly initialised parser put in the timestamp state. -/
def parser_at_timestamp : syslog_parser_t := { uslg_parser_init with state := s_timestamp }

/-- The freshly initialised parser put in the version state. -/
def parser_at_version : syslog_parser_t := { uslg_parser_init with state := s_version }

/-- The callback invocation is a head-complete one. -/
def is_head_complete : Event → Bool
  | Event.msg_head _ => true
  | _ => false

/-- How many times the head-complete callback fired. -/
def head_complete_count (events : List Event) : Nat := events.countP is_head_complete

/-- How many bytes were handed to the `case s_sd_start` of the state switch. -/
def sd_start_dispatches (dispatched : List (Nat × syslog_state)) : Nat :=
  dispatched.countP (fun e => decide (e.2 = s_sd_start))

/-! ## Unfolding the driver loop -/

theorem flags_never_count_octets (f : Fin 8) : f.val &&& F_COUNT_OCTETS = 0 := by
  revert f; decide

theorem skip_byte_eq (parser : syslog_parser_t) : skip_byte parser = parser := by
  simp [skip_byte, flags_never_count_octets]

theorem exec_loop_nil (u : Undef) (settings : syslog_parser_settings) (fuel : Nat)
    (parser : syslog_parser_t) (action : Int) :
    exec_loop u settings (fuel + 1) parser [] action =
      some { parser := parser, events := [], dispatched := [] } := rfl

theorem exec_loop_skip (u : Undef) (settings : syslog_parser_settings) (fuel : Nat)
    (parser : syslog_parser_t) (c : Nat) (tl : List Nat) (action : Int)
    (h : skips parser c = true) :
    exec_loop u settings (fuel + 1) parser (c :: tl) action =
      exec_loop u settings fuel parser tl action := by
  simp [exec_loop, h, skip_byte_eq]

theorem exec_loop_exit (u : Undef) (settings : syslog_parser_settings) (fuel : Nat)
    (parser : syslog_parser_t) (c : Nat) (tl : List Nat) (action : Int)
    (h : skips parser c = false)
    (hx : (loop_body u settings parser c tl action).exit_exec = true) :
    exec_loop u settings (fuel + 1) parser (c :: tl) action =
      some { parser := (loop_body u settings parser c tl action).parser,
             events := (loop_body u settings parser c tl action).events,
             dispatched := [(tl.length + 1, parser.state)] } := by
  simp [exec_loop, h, hx]

theorem exec_loop_continue (u : Undef) (settings : syslog_parser_settings) (fuel : Nat)
    (parser : syslog_parser_t) (c : Nat) (tl : List Nat) (action : Int)
    (h : skips parser c = false)
    (hx : (loop_body u settings parser c tl action).exit_exec = false) :
    exec_loop u settings (fuel + 1) parser (c :: tl) action =
      (exec_loop u settings fuel (loop_body u settings parser c tl action).parser
        (loop_body u settings parser c tl action).rest
        (loop_body u settings parser c tl action).action).map
        (exec_result.after_iteration (loop_body u settings parser c tl action).events
          (tl.length + 1, parser.state)) := by
  simp [exec_loop, h, hx]

/-- More fuel does not change a finished run. -/
theorem exec_loop_mono (u : Undef) (settings : syslog_parser_settings) :
    ∀ (fuel : Nat) (parser : syslog_parser_t) (data : List Nat) (action : Int) (r : exec_result)
      (more : Nat),
      exec_loop u settings fuel parser data action = some r →
      exec_loop u settings (fuel + more) parser data action = some r := by
  intro fuel
  induction fuel with
  | zero => intro parser data action r more h; simp [exec_loop] at h
  | succ n ih =>
    intro parser data action r more h
    have e : n + 1 + more = (n + more) + 1 := by omega
    rw [e]
    cases data with
    | nil => simpa [exec_loop] using h
    | cons c tl =>
      by_cases hs : skips parser c = true
      · rw [exec_loop_skip _ _ _ _ _ _ _ hs] at h ⊢
        exact ih _ _ _ _ _ h
      · have hs : skips parser c = false := by simpa using hs
        by_cases hx : (loop_body u settings parser c tl action).exit_exec = true
        · rw [exec_loop_exit _ _ _ _ _ _ _ hs hx] at h ⊢
          exact h
        · have hx : (loop_body u settings parser c tl action).exit_exec = false := by
            simpa using hx
          rw [exec_loop_continue _ _ _ _ _ _ _ hs hx] at h ⊢
          cases hr : exec_loop u settings n (loop_body u settings parser c tl action).parser
              (loop_body u settings parser c tl action).rest
              (loop_body u settings parser c tl action).action with
          | none => simp [hr] at h
          | some r1 =>
            rw [ih _ _ _ _ more hr]
            simpa [hr] using h

/-! ## Invariants of the driver loop -/

/-- A property of the parser that every pass through the loop body keeps is
kept by the whole loop. -/
theorem exec_loop_invariant (u : Undef) (settings : syslog_parser_settings)
    (P : syslog_parser_t → Prop)
    (hbody : ∀ parser c tl action, P parser → P (loop_body u settings parser c tl action).parser) :
    ∀ (fuel : Nat) (parser : syslog_parser_t) (data : List Nat) (action : Int) (r : exec_result),
      P parser → exec_loop u settings fuel parser data action = some r → P r.parser := by
  intro fuel
  induction fuel with
  | zero => intro parser data action r _ h; simp [exec_loop] at h
  | succ n ih =>
    intro parser data action r hP h
    cases data with
    | nil =>
      simp [exec_loop] at h
      subst h; exact hP
    | cons c tl =>
      by_cases hs : skips parser c = true
      · rw [exec_loop_skip _ _ _ _ _ _ _ hs] at h
        exact ih _ _ _ _ hP h
      · have hs : skips parser c = false := by simpa using hs
        by_cases hx : (loop_body u settings parser c tl action).exit_exec = true
        · rw [exec_loop_exit _ _ _ _ _ _ _ hs hx] at h
          simp at h
          subst h; exact hbody _ _ _ _ hP
        · have hx : (loop_body u settings parser c tl action).exit_exec = false := by
            simpa using hx
          rw [exec_loop_continue _ _ _ _ _ _ _ hs hx] at h
          cases hr : exec_loop u settings n (loop_body u settings parser c tl action).parser
              (loop_body u settings parser c tl action).rest
              (loop_body u settings parser c tl action).action with
          | none => simp [hr] at h
          | some r1 =>
            simp [hr] at h
            subst h
            exact ih _ _ _ r1 (hbody _ _ _ _ hP) hr

theorem store_byte_in_pbuffer_ok (byte : Nat) (dest : pbuffer) (h : pbuffer_ok dest) :
    pbuffer_ok (store_byte_in_pbuffer byte dest).2 := by
  unfold store_byte_in_pbuffer pbuffer_ok
  split
  · simp; omega
  · exact h

theorem store_byte_in_pbuffer_size (byte : Nat) (dest : pbuffer) :
    (store_byte_in_pbuffer byte dest).2.size = dest.size := by
  unfold store_byte_in_pbuffer
  split <;> rfl

theorem copy_into_pbuffer_ok (source : List Nat) (dest : pbuffer) (length : Nat)
    (h : pbuffer_ok dest) : pbuffer_ok (copy_into_pbuffer source dest length).2 := by
  unfold copy_into_pbuffer pbuffer_ok
  split
  · simp; omega
  · exact h

theorem dispatch_buffer_ok (u : Undef) (settings : syslog_parser_settings) (parser : syslog_parser_t)
    (c : Nat) (data : List Nat) (action : Int) (h : pbuffer_ok parser.buffer) :
    pbuffer_ok (dispatch u settings parser c data action).parser.buffer := by
  have hs := store_byte_in_pbuffer_ok c parser.buffer h
  have h0 : pbuffer_ok (reset_pbuffer parser.buffer) := by simp [pbuffer_ok, reset_pbuffer]
  unfold dispatch
  split <;>
    simp only [msg_start, octet_count, priority_start, priority, version, parse_msg_head_part,
      sd_start, sd_element, sd_field, sd_field_end, sd_value_begin, sd_value, read_message,
      set_state, set_token_state, set_str_field, reset_buffer, store_byte] <;>
    (repeat' split) <;> first | exact h | exact hs | exact h0

theorem loop_body_buffer_ok (u : Undef) (settings : syslog_parser_settings)
    (parser : syslog_parser_t) (c : Nat) (tl : List Nat) (action : Int)
    (h : pbuffer_ok parser.buffer) :
    pbuffer_ok (loop_body u settings parser c tl action).parser.buffer := by
  have h1 : pbuffer_ok (enter_token parser).buffer := by
    unfold enter_token set_token_state; split <;> exact h
  have h2 := dispatch_buffer_ok u settings (enter_token parser) c (c :: tl) action h1
  unfold loop_body apply_action uslg_parser_reset
  simp only
  (repeat' split) <;> exact h2

theorem enter_token_state (parser : syslog_parser_t) :
    (enter_token parser).state = parser.state := by
  unfold enter_token set_token_state; split <;> rfl

theorem enter_token_error (parser : syslog_parser_t) :
    (enter_token parser).error = parser.error := by
  unfold enter_token set_token_state; split <;> rfl

/-- Only `read_message` moves the parser to `s_msg_complete`, and it hands back
`rv_inc_index`. -/
theorem dispatch_complete_action (u : Undef) (settings : syslog_parser_settings)
    (parser : syslog_parser_t) (c : Nat) (data : List Nat) (action : Int)
    (hh : has_handler parser.state = true)
    (hc : (dispatch u settings parser c data action).parser.state = s_msg_complete) :
    (dispatch u settings parser c data action).action = rv_inc_index := by
  obtain ⟨fl, ts, st, er, hd, ml, rd, bf⟩ := parser
  revert hc
  cases st <;>
    simp only [dispatch, msg_start, octet_count, priority_start, priority, version,
      parse_msg_head_part, sd_start, sd_element, sd_field, sd_field_end, sd_value_begin, sd_value,
      read_message, set_state, set_token_state, set_str_field, reset_buffer, store_byte] <;>
    (repeat' split) <;> simp_all [has_handler]

/-- When the directive is not `rv_advance` in state `s_msg_complete`, the
`switch (action)` leaves the parser alone and fires nothing. -/
theorem apply_action_unchanged (settings : syslog_parser_settings) (parser : syslog_parser_t)
    (action : Int) (data : List Nat)
    (h : parser.state = s_msg_complete → action ≠ rv_advance) :
    (apply_action settings parser action data).parser = parser ∧
    (apply_action settings parser action data).events = [] := by
  unfold apply_action
  by_cases ha : action = rv_advance
  · by_cases hs : parser.state = s_msg_complete
    · exact absurd ha (h hs)
    · simp [ha, hs]
  · rw [if_neg ha]; (repeat' split) <;> simp

theorem not_ws_not_skipped (parser : syslog_parser_t) (c : Nat) (h : IS_WS c = false) :
    skips parser c = false := by
  simp [IS_WS] at h
  simp [skips, h]

/-- In an accumulating state a byte that is not whitespace is stored (or
dropped when the buffer is full): nothing else of the parser changes, the
directive is `rv_advance`, no callback fires and the loop goes on. -/
theorem loop_body_accumulate (u : Undef) (settings : syslog_parser_settings)
    (parser : syslog_parser_t) (c : Nat) (tl : List Nat) (action : Int)
    (hst : accumulates_token parser.state = true) (hc : IS_WS c = false) :
    (loop_body u settings parser c tl action).parser.state = parser.state ∧
    (loop_body u settings parser c tl action).parser.error = parser.error ∧
    (loop_body u settings parser c tl action).events = [] ∧
    (loop_body u settings parser c tl action).rest = tl ∧
    (loop_body u settings parser c tl action).exit_exec = decide (parser.error ≠ 0) := by
  obtain ⟨fl, ts, st, er, hd, ml, rd, bf⟩ := parser
  cases st <;> simp [accumulates_token] at hst <;>
    cases ts <;>
    simp [loop_body, dispatch, enter_token, set_token_state, parse_msg_head_part, sd_element, hc,
      store_byte, apply_action, rv_advance]

theorem exec_loop_accumulate (u : Undef) (settings : syslog_parser_settings) :
    ∀ (token : List Nat) (parser : syslog_parser_t) (action : Int),
      accumulates_token parser.state = true → parser.error = 0 →
      (∀ c ∈ token, IS_WS c = false) →
      ∃ r, exec_loop u settings (token.length + 1) parser token action = some r ∧
        r.parser.error = 0 ∧ r.events = [] ∧ r.parser.state = parser.state := by
  intro token
  induction token with
  | nil => intro parser action _ he _; exact ⟨_, rfl, he, rfl, rfl⟩
  | cons c tl ih =>
    intro parser action hst he htok
    have hc : IS_WS c = false := htok c (List.mem_cons_self _ _)
    obtain ⟨h1, h2, h3, h4, h5⟩ := loop_body_accumulate u settings parser c tl action hst hc
    have hx : (loop_body u settings parser c tl action).exit_exec = false := by
      rw [h5]; simp [he]
    obtain ⟨r, hr, hre, hrv, hrs⟩ := ih (loop_body u settings parser c tl action).parser
      (loop_body u settings parser c tl action).action (by rw [h1]; exact hst) (by rw [h2]; exact he)
      (fun d hd => htok d (List.mem_cons_of_mem _ hd))
    refine ⟨exec_result.after_iteration (loop_body u settings parser c tl action).events
      (tl.length + 1, parser.state) r, ?_, ?_, ?_, ?_⟩
    · rw [List.length_cons, exec_loop_continue _ _ _ _ _ _ _ (not_ws_not_skipped parser c hc) hx,
        h4, hr]
      rfl
    · exact hre
    · simp [exec_result.after_iteration, h3, hrv]
    · simp [exec_result.after_iteration, hrs, h1]

/-! ## The scan for the line-feed -/

theorem stop_index_le (l : List Nat) : stop_index l ≤ l.length := by
  induction l with
  | nil => simp [stop_index]
  | cons c tl ih =>
    unfold stop_index
    split
    · omega
    · simp; omega

theorem stop_index_line (b rest : List Nat) (h : 10 ∉ b) :
    stop_index (b ++ 10 :: rest) = b.length := by
  induction b with
  | nil => simp [stop_index]
  | cons c tl ih =>
    have hc : c ≠ 10 := fun e => h (by simp [e])
    have ht : 10 ∉ tl := fun e => h (by simp [e])
    simp [stop_index, hc, ih ht]

theorem stop_index_no_lf (b : List Nat) (h : 10 ∉ b) : stop_index b = b.length := by
  induction b with
  | nil => simp [stop_index]
  | cons c tl ih =>
    have hc : c ≠ 10 := fun e => h (by simp [e])
    have ht : 10 ∉ tl := fun e => h (by simp [e])
    simp [stop_index, hc, ih ht]

/-- In the message-body state with callbacks returning 0, a line `b` that
ends in a line-feed is handed to the body callback whole, and the loop goes
on behind the line-feed in state `s_msg_complete`. -/
theorem loop_body_line (u : Undef) (parser : syslog_parser_t) (b rest : List Nat) (action : Int)
    (c : Nat) (tl : List Nat)
    (hstate : parser.state = s_message) (hb : 10 ∉ b) (hd : c :: tl = b ++ 10 :: rest) :
    loop_body u settings_zero parser c tl action =
      { parser := { set_state (enter_token parser) s_msg_complete with error := 0, read := b.length },
        events := [Event.msg b],
        rest := rest,
        action := rv_inc_index,
        exit_exec := false } := by
  have hst : (enter_token parser).state = s_message := by rw [enter_token_state]; exact hstate
  have hlen : b.length < (b ++ 10 :: rest).length := by simp
  simp only [loop_body, dispatch, hst, read_message, flags_never_count_octets, hd,
    stop_index_line b rest hb]
  simp [hlen, apply_action, rv_inc_index, rv_advance, rv_rehash, settings_zero, to_uchar, set_state,
    set_token_state]

/-- The body line of C5 read from the message-body state: one body
callback with payload `b`, then the end of the slice. -/
theorem exec_loop_line (u : Undef) (parser : syslog_parser_t) (b : List Nat) (action : Int)
    (fuel : Nat) (hstate : parser.state = s_message)
    (hb : 10 ∉ b) (hfirst : ∀ c ∈ b.head?, c ≠ 32 ∧ c ≠ 9) :
    ∃ r, exec_loop u settings_zero (fuel + 2) parser (b ++ [10]) action = some r ∧
      r.events = [Event.msg b] ∧ r.parser.error = 0 ∧ r.parser.state = s_msg_complete := by
  obtain ⟨c, tl, hd⟩ : ∃ c tl, c :: tl = b ++ [10] := by
    cases b with
    | nil => exact ⟨10, [], rfl⟩
    | cons c tl => exact ⟨c, tl ++ [10], by simp⟩
  have hc : c ≠ 32 ∧ c ≠ 9 := by
    cases b with
    | nil => simp at hd; omega
    | cons d tl2 =>
      simp at hd
      have := hfirst d (by simp)
      rw [hd.1]; exact this
  have hs : skips parser c = false := by simp [skips, hc.1, hc.2]
  have hbody := loop_body_line u parser b [] action c tl hstate hb hd
  have he : exec_loop u settings_zero (fuel + 2) parser (b ++ [10]) action =
      some (exec_result.after_iteration [Event.msg b] (tl.length + 1, parser.state)
        { parser := { set_state (enter_token parser) s_msg_complete with
                        error := 0, read := b.length },
          events := [], dispatched := [] }) := by
    rw [← hd, exec_loop_continue _ _ _ _ _ _ _ hs (by rw [hbody]), hbody]
    rfl
  exact ⟨_, he, by simp [exec_result.after_iteration], by simp [exec_result.after_iteration],
    by simp [exec_result.after_iteration, set_state, set_token_state]⟩

/-! ## The message-complete callback -/

/-- No state handler fires the message-complete callback. -/
theorem dispatch_no_complete (u : Undef) (settings : syslog_parser_settings)
    (parser : syslog_parser_t) (c : Nat) (data : List Nat) (action : Int) :
    Event.msg_complete ∉ (dispatch u settings parser c data action).events := by
  obtain ⟨fl, ts, st, er, hd, ml, rd, bf⟩ := parser
  cases st <;>
    simp only [dispatch, msg_start, octet_count, priority_start, priority, version,
      parse_msg_head_part, sd_start, sd_element, sd_field, sd_field_end, sd_value_begin, sd_value,
      read_message, set_state, set_token_state, set_str_field, reset_buffer, store_byte] <;>
    (repeat' split) <;> simp

/-- The state switch keeps: in state `s_msg_complete` the directive is not
`rv_advance`. -/
theorem dispatch_keeps_directive (u : Undef) (settings : syslog_parser_settings)
    (parser : syslog_parser_t) (c : Nat) (data : List Nat) (action : Int)
    (h : parser.state = s_msg_complete → action ≠ rv_advance) :
    (dispatch u settings parser c data action).parser.state = s_msg_complete →
      (dispatch u settings parser c data action).action ≠ rv_advance := by
  intro hc
  by_cases hh : has_handler parser.state = true
  · rw [dispatch_complete_action u settings parser c data action hh hc]; decide
  · obtain ⟨fl, ts, st, er, hd, ml, rd, bf⟩ := parser
    cases st <;> simp [has_handler] at hh <;> simp [dispatch] at hc ⊢
    exact h rfl

/-- A pass through the loop body that starts with a directive other than
`rv_advance` whenever the state is `s_msg_complete` ends so, leaves the
parser as the handler left it and fires only the handler's callbacks. -/
theorem loop_body_keeps_directive (u : Undef) (settings : syslog_parser_settings)
    (parser : syslog_parser_t) (c : Nat) (tl : List Nat) (action : Int)
    (h : parser.state = s_msg_complete → action ≠ rv_advance) :
    ((loop_body u settings parser c tl action).parser.state = s_msg_complete →
      (loop_body u settings parser c tl action).action ≠ rv_advance) ∧
    (loop_body u settings parser c tl action).parser =
      (dispatch u settings (enter_token parser) c (c :: tl) action).parser ∧
    (loop_body u settings parser c tl action).events =
      (dispatch u settings (enter_token parser) c (c :: tl) action).events := by
  have h1 : (enter_token parser).state = s_msg_complete → action ≠ rv_advance := by
    rw [enter_token_state]; exact h
  have h2 := dispatch_keeps_directive u settings (enter_token parser) c (c :: tl) action h1
  have h3 := apply_action_unchanged settings
    (dispatch u settings (enter_token parser) c (c :: tl) action).parser
    (dispatch u settings (enter_token parser) c (c :: tl) action).action (c :: tl) h2
  refine ⟨?_, ?_, ?_⟩
  · simp only [loop_body, h3.1]; exact h2
  · simp only [loop_body, h3.1]
  · simp only [loop_body, h3.2, List.append_nil]

theorem exec_loop_no_complete (u : Undef) (settings : syslog_parser_settings) :
    ∀ (fuel : Nat) (parser : syslog_parser_t) (data : List Nat) (action : Int) (r : exec_result),
      (parser.state = s_msg_complete → action ≠ rv_advance) →
      exec_loop u settings fuel parser data action = some r →
      Event.msg_complete ∉ r.events := by
  intro fuel
  induction fuel with
  | zero => intro parser data action r _ h; simp [exec_loop] at h
  | succ n ih =>
    intro parser data action r hinv h
    cases data with
    | nil =>
      simp [exec_loop] at h
      subst h; simp
    | cons c tl =>
      by_cases hs : skips parser c = true
      · rw [exec_loop_skip _ _ _ _ _ _ _ hs] at h
        exact ih _ _ _ _ hinv h
      · have hs : skips parser c = false := by simpa using hs
        obtain ⟨k1, _, k3⟩ := loop_body_keeps_directive u settings parser c tl action hinv
        have hev : Event.msg_complete ∉ (loop_body u settings parser c tl action).events := by
          rw [k3]; exact dispatch_no_complete _ _ _ _ _ _
        by_cases hx : (loop_body u settings parser c tl action).exit_exec = true
        · rw [exec_loop_exit _ _ _ _ _ _ _ hs hx] at h
          simp at h
          subst h; exact hev
        · have hx : (loop_body u settings parser c tl action).exit_exec = false := by
            simpa using hx
          rw [exec_loop_continue _ _ _ _ _ _ _ hs hx] at h
          cases hr : exec_loop u settings n (loop_body u settings parser c tl action).parser
              (loop_body u settings parser c tl action).rest
              (loop_body u settings parser c tl action).action with
          | none => simp [hr] at h
          | some r1 =>
            simp [hr] at h
            subst h
            have := ih _ _ _ r1 k1 hr
            simp [exec_result.after_iteration, hev, this]

/-! ## The error field across calls -/

theorem merge_chunks_append_congr (pre xs ys : List Event)
    (h : merge_chunks xs = merge_chunks ys) :
    merge_chunks (pre ++ xs) = merge_chunks (pre ++ ys) := by
  induction pre with
  | nil => simpa using h
  | cons e tl ih =>
    cases e <;> simp [merge_chunks, ih]

theorem merge_chunks_two (x y : List Nat) :
    merge_chunks [Event.msg x, Event.msg y] = merge_chunks [Event.msg (x ++ y)] := by
  simp [merge_chunks]

theorem stop_index_append_lt (a b : List Nat) (h : stop_index a < a.length) :
    stop_index (a ++ b) = stop_index a := by
  induction a with
  | nil => simp at h
  | cons c tl ih =>
    by_cases hc : c = 10
    · simp [stop_index, hc]
    · simp only [stop_index, hc, if_false, List.length_cons, List.cons_append] at h ⊢
      have := ih (by omega)
      simp only [HAppend.hAppend, Append.append] at this ⊢
      omega

theorem stop_index_append_ge (a b : List Nat) (h : ¬ stop_index a < a.length) :
    stop_index (a ++ b) = a.length + stop_index b := by
  induction a with
  | nil => simp
  | cons c tl ih =>
    by_cases hc : c = 10
    · simp [stop_index, hc] at h
    · simp only [stop_index, hc, if_false, List.length_cons, List.cons_append] at h ⊢
      have := ih (by omega)
      simp only [HAppend.hAppend, Append.append] at this ⊢
      omega

theorem enter_token_token_state (parser : syslog_parser_t) :
    (enter_token parser).token_state = ts_read := by
  unfold enter_token set_token_state
  split
  · rfl
  · rename_i h
    cases ht : parser.token_state with
    | ts_before => exact absurd ht h
    | ts_read => rfl

theorem enter_token_idem (parser : syslog_parser_t) (h : parser.token_state = ts_read) :
    enter_token parser = parser := by
  simp [enter_token, h]

/-- The loop body in the message-body state, with callbacks returning 0. -/
theorem loop_body_message (u : Undef) (parser : syslog_parser_t) (c : Nat) (tl : List Nat)
    (action : Int) (hstate : parser.state = s_message) :
    loop_body u settings_zero parser c tl action =
      { parser :=
          { (if stop_index (c :: tl) < (c :: tl).length
              then set_state (enter_token parser) s_msg_complete else enter_token parser) with
            error := 0, read := stop_index (c :: tl) },
        events := [Event.msg ((c :: tl).take (stop_index (c :: tl)))],
        rest := (c :: tl).drop (stop_index (c :: tl) + 1),
        action := rv_inc_index,
        exit_exec := false } := by
  have hst : (enter_token parser).state = s_message := by rw [enter_token_state]; exact hstate
  simp only [loop_body, dispatch, hst, read_message, flags_never_count_octets]
  simp [apply_action, rv_inc_index, rv_advance, rv_rehash, settings_zero, to_uchar]

/-- With a handler for the state, the directive left by the previous
iteration plays no part in the loop body. -/
theorem loop_body_action_irrelevant (u : Undef) (settings : syslog_parser_settings)
    (parser : syslog_parser_t) (c : Nat) (tl : List Nat) (action action1 : Int)
    (hh : has_handler parser.state = true) :
    loop_body u settings parser c tl action = loop_body u settings parser c tl action1 := by
  have hd : dispatch u settings (enter_token parser) c (c :: tl) action =
      dispatch u settings (enter_token parser) c (c :: tl) action1 := by
    have hh1 : has_handler (enter_token parser).state = true := by
      rw [enter_token_state]; exact hh
    generalize enter_token parser = q at hh1
    obtain ⟨fl, ts, st, er, hd, ml, rd, bf⟩ := q
    cases st <;> simp [has_handler] at hh1 <;> rfl
  simp only [loop_body, hd]

/-- Without a handler for the state the loop body ends the loop with
`SLERR_BAD_STATE`, unless the stale directive is `rv_advance` in state
`s_msg_complete`. -/
theorem loop_body_no_handler (u : Undef) (settings : syslog_parser_settings)
    (parser : syslog_parser_t) (c : Nat) (tl : List Nat) (action : Int)
    (hh : has_handler parser.state = false)
    (hinv : parser.state = s_msg_complete → action ≠ rv_advance) :
    (loop_body u settings parser c tl action).exit_exec = true ∧
    (loop_body u settings parser c tl action).parser.error ≠ 0 := by
  obtain ⟨_, k2, _⟩ := loop_body_keeps_directive u settings parser c tl action hinv
  have hd : (dispatch u settings (enter_token parser) c (c :: tl) action).parser.error = 100 := by
    have hh1 : has_handler (enter_token parser).state = false := by
      rw [enter_token_state]; exact hh
    generalize enter_token parser = q at hh1
    obtain ⟨fl, ts, st, er, hd, ml, rd, bf⟩ := q
    cases st <;> simp [has_handler] at hh1 <;> simp [dispatch, to_uchar, SLERR_BAD_STATE]
  constructor
  · simp [loop_body, hd]
  · rw [k2, hd]; decide

/-- Outside the message-body state, with callbacks returning 0 and
`sd_value` yielding `rv_advance`, the loop body looks at the current byte
only: more bytes behind the slice are left behind the rest. -/
theorem loop_body_append_head (u : Undef) (parser : syslog_parser_t) (c : Nat) (tl b : List Nat)
    (action : Int)
    (hu : ∀ p k, u.sd_value_result p k = rv_advance)
    (hh : has_handler parser.state = true) (hm : parser.state ≠ s_message) :
    loop_body u settings_zero parser c (tl ++ b) action =
      { loop_body u settings_zero parser c tl action with
        rest := (loop_body u settings_zero parser c tl action).rest ++ b } ∧
    ((loop_body u settings_zero parser c tl action).exit_exec = true →
      (loop_body u settings_zero parser c tl action).parser.error ≠ 0) := by
  have hh1 : has_handler (enter_token parser).state = true := by
    rw [enter_token_state]; exact hh
  have hm1 : (enter_token parser).state ≠ s_message := by
    rw [enter_token_state]; exact hm
  simp only [loop_body]
  generalize enter_token parser = q at hh1 hm1
  obtain ⟨fl, ts, st, er, hd, ml, rd, bf⟩ := q
  cases st <;> simp [has_handler] at hh1 hm1 <;>
    simp only [dispatch, msg_start, octet_count, priority_start, priority, version,
      parse_msg_head_part, sd_start, sd_element, sd_field, sd_field_end, sd_value_begin, sd_value,
      hu, settings_zero] <;>
    (repeat' split) <;>
    simp [apply_action, rv_advance, rv_rehash, rv_inc_index, set_state, set_token_state,
      store_byte, set_str_field, reset_buffer, to_uchar, SLERR_BAD_OCTET_COUNT,
      SLERR_BAD_PRIORITY_START, SLERR_BAD_PRIORITY, SLERR_BAD_VERSION]

/-- A run that ends with `error` 0 never read the directive it started
with, provided that directive is not `rv_advance` in state
`s_msg_complete`: any other initial directive gives the same run. -/
theorem exec_loop_action_irrelevant (u : Undef) (settings : syslog_parser_settings) :
    ∀ (fuel : Nat) (parser : syslog_parser_t) (data : List Nat) (action action1 : Int)
      (r : exec_result),
      (parser.state = s_msg_complete → action ≠ rv_advance) →
      exec_loop u settings fuel parser data action = some r → r.parser.error = 0 →
      exec_loop u settings fuel parser data action1 = some r := by
  intro fuel
  induction fuel with
  | zero => intro parser data action action1 r _ h; simp [exec_loop] at h
  | succ n ih =>
    intro parser data action action1 r hinv h he
    cases data with
    | nil => simpa [exec_loop] using h
    | cons c tl =>
      by_cases hs : skips parser c = true
      · rw [exec_loop_skip _ _ _ _ _ _ _ hs] at h ⊢
        exact ih _ _ _ _ _ hinv h he
      · have hs : skips parser c = false := by simpa using hs
        by_cases hh : has_handler parser.state = true
        · have e := loop_body_action_irrelevant u settings parser c tl action action1 hh
          simp only [exec_loop, hs] at h ⊢
          rw [e] at h
          exact h
        · have hh : has_handler parser.state = false := by simpa using hh
          obtain ⟨k1, k2⟩ := loop_body_no_handler u settings parser c tl action hh hinv
          rw [exec_loop_exit _ _ _ _ _ _ _ hs k1] at h
          simp at h
          subst h
          exact absurd he k2

/-- In state `s_msg_complete`, or at the end of the slice, a run that ends
with `error` 0 only skips separators: the parser stays as it is and no
callback fires; a parser in the same state and token state does the same. -/
theorem exec_loop_after_body (u : Undef) (settings : syslog_parser_settings) :
    ∀ (fuel : Nat) (q : syslog_parser_t) (rest : List Nat) (action : Int) (r : exec_result),
      (q.state = s_msg_complete ∨ rest = []) → action ≠ rv_advance →
      exec_loop u settings fuel q rest action = some r → r.parser.error = 0 →
      r.parser = q ∧ r.events = [] ∧
      ∀ q2 : syslog_parser_t, q2.state = q.state → q2.token_state = q.token_state →
        exec_loop u settings fuel q2 rest action =
          some { parser := q2, events := [], dispatched := r.dispatched } := by
  intro fuel
  induction fuel with
  | zero => intro q rest action r _ _ h; simp [exec_loop] at h
  | succ n ih =>
    intro q rest action r hq ha h he
    cases rest with
    | nil =>
      simp [exec_loop] at h
      subst h
      exact ⟨rfl, rfl, fun q2 _ _ => rfl⟩
    | cons d rest2 =>
      have hq : q.state = s_msg_complete := by
        rcases hq with hq | hq
        · exact hq
        · simp at hq
      by_cases hs : skips q d = true
      · rw [exec_loop_skip _ _ _ _ _ _ _ hs] at h
        obtain ⟨k1, k2, k3⟩ := ih q rest2 action r (Or.inl hq) ha h he
        refine ⟨k1, k2, fun q2 h1 h2 => ?_⟩
        have hs2 : skips q2 d = true := by simpa [skips, h2] using hs
        rw [exec_loop_skip _ _ _ _ _ _ _ hs2]
        exact k3 q2 h1 h2
      · have hs : skips q d = false := by simpa using hs
        obtain ⟨k1, k2⟩ := loop_body_no_handler u settings q d rest2 action
          (by rw [hq]; rfl) (fun _ => ha)
        rw [exec_loop_exit _ _ _ _ _ _ _ hs k1] at h
        simp at h
        subst h
        exact absurd he k2

/-- The message-body read of a slice `a` without line-feed that is followed
by `b`: the body callback receives `a` and the part of `b` before its first
line-feed. -/
theorem loop_body_message_cross (u : Undef) (parser : syslog_parser_t) (c : Nat) (tl b : List Nat)
    (action : Int) (hstate : parser.state = s_message)
    (hlf : ¬ stop_index (c :: tl) < (c :: tl).length) :
    loop_body u settings_zero parser c (tl ++ b) action =
      { parser :=
          { (if stop_index b < b.length
              then set_state (enter_token parser) s_msg_complete else enter_token parser) with
            error := 0, read := (c :: tl).length + stop_index b },
        events := [Event.msg (c :: tl ++ b.take (stop_index b))],
        rest := b.drop (stop_index b + 1),
        action := rv_inc_index,
        exit_exec := false } := by
  have hk : stop_index (c :: (tl ++ b)) = (c :: tl).length + stop_index b := by
    have := stop_index_append_ge (c :: tl) b hlf
    simpa using this
  rw [loop_body_message u parser c (tl ++ b) action hstate, hk]
  have e1 : (c :: tl).length + stop_index b < (c :: (tl ++ b)).length ↔
      stop_index b < b.length := by
    simp only [List.length_cons, List.length_append]; omega
  have e2 : List.take ((c :: tl).length + stop_index b) (c :: (tl ++ b)) =
      c :: tl ++ b.take (stop_index b) := by
    rw [← List.cons_append, List.take_append]
  have e3 : List.drop ((c :: tl).length + stop_index b + 1) (c :: (tl ++ b)) =
      b.drop (stop_index b + 1) := by
    rw [← List.cons_append, Nat.add_assoc, List.drop_append]
  simp only [e1, e2, e3]

/-- The message-body read of a slice without line-feed: the body callback
receives the whole slice and the state stays message-body. -/
theorem loop_body_message_open (u : Undef) (parser : syslog_parser_t) (c : Nat) (tl : List Nat)
    (action : Int) (hstate : parser.state = s_message)
    (hlf : ¬ stop_index (c :: tl) < (c :: tl).length) :
    loop_body u settings_zero parser c tl action =
      { parser := { enter_token parser with error := 0, read := (c :: tl).length },
        events := [Event.msg (c :: tl)],
        rest := [],
        action := rv_inc_index,
        exit_exec := false } := by
  have h := loop_body_message_cross u parser c tl [] action hstate hlf
  simpa [stop_index] using h

/-- The message-body read of a slice whose line-feed lies in its first
part `c :: tl`: what follows that part stays behind the rest. -/
theorem loop_body_append_message (u : Undef) (parser : syslog_parser_t) (c : Nat) (tl b : List Nat)
    (action : Int) (hstate : parser.state = s_message)
    (hlf : stop_index (c :: tl) < (c :: tl).length) :
    loop_body u settings_zero parser c (tl ++ b) action =
      { loop_body u settings_zero parser c tl action with
        rest := (loop_body u settings_zero parser c tl action).rest ++ b } ∧
    (loop_body u settings_zero parser c tl action).exit_exec = false := by
  have hk : stop_index (c :: (tl ++ b)) = stop_index (c :: tl) := by
    have := stop_index_append_lt (c :: tl) b hlf
    simpa using this
  rw [loop_body_message u parser c (tl ++ b) action hstate,
    loop_body_message u parser c tl action hstate, hk]
  have e1 : stop_index (c :: tl) < (c :: (tl ++ b)).length := by
    simp only [List.length_cons, List.length_append] at hlf ⊢; omega
  have e2 : List.take (stop_index (c :: tl)) (c :: (tl ++ b)) =
      List.take (stop_index (c :: tl)) (c :: tl) := by
    rw [← List.cons_append, List.take_append_of_le_length (by omega)]
  have e3 : List.drop (stop_index (c :: tl) + 1) (c :: (tl ++ b)) =
      List.drop (stop_index (c :: tl) + 1) (c :: tl) ++ b := by
    rw [← List.cons_append, List.drop_append_of_le_length (by omega)]
  simp only [e1, e2, e3, hlf, if_true, and_self]

theorem exec_loop_map_some {u : Undef} {settings : syslog_parser_settings} {fuel : Nat}
    {parser : syslog_parser_t} {data : List Nat} {action : Int} {evs : List Event}
    {k : Nat × syslog_state}
    {r : exec_result}
    (h : (exec_loop u settings fuel parser data action).map (exec_result.after_iteration evs k) =
      some r) :
    ∃ r1, exec_loop u settings fuel parser data action = some r1 ∧
      r = exec_result.after_iteration evs k r1 := by
  cases hr : exec_loop u settings fuel parser data action with
  | none => simp [hr] at h
  | some r1 =>
    simp [hr] at h
    exact ⟨r1, rfl, h.symm⟩

/-- A body read that runs over the end of the first slice: fed in two
calls, the body reaches the callback in two chunks and the parser ends in
the same state. -/
theorem exec_loop_split_body (u : Undef) (n : Nat) (parser : syslog_parser_t) (c : Nat)
    (tl b : List Nat) (action action1 : Int) (r : exec_result)
    (hstate : parser.state = s_message) (hs : skips parser c = false)
    (hlf : ¬ stop_index (c :: tl) < (c :: tl).length)
    (h : exec_loop u settings_zero (n + 1) parser (c :: (tl ++ b)) action = some r)
    (he : r.parser.error = 0) :
    ∃ r1 r2, exec_loop u settings_zero (n + 1) parser (c :: tl) action = some r1 ∧
      exec_loop u settings_zero (n + 1) r1.parser b action1 = some r2 ∧
      same_parse_state r2.parser r.parser ∧
      merge_chunks (r1.events ++ r2.events) = merge_chunks r.events := by
  have hw := loop_body_message_cross u parser c tl b action hstate hlf
  have h1 := loop_body_message_open u parser c tl action hstate hlf
  rw [exec_loop_continue _ _ _ _ _ _ _ hs (by rw [hw]), hw] at h
  simp only [] at h
  obtain ⟨r3, hr3, hr⟩ := exec_loop_map_some h
  have he3 : r3.parser.error = 0 := by rw [hr] at he; exact he
  obtain ⟨m, hm⟩ : ∃ m, n = m + 1 := by
    cases n with
    | zero => simp [exec_loop] at hr3
    | succ m => exact ⟨m, rfl⟩
  have hq : ({ (if stop_index b < b.length
              then set_state (enter_token parser) s_msg_complete else enter_token parser) with
            error := 0, read := (c :: tl).length + stop_index b } : syslog_parser_t).state =
            s_msg_complete ∨ b.drop (stop_index b + 1) = [] := by
    by_cases hf : stop_index b < b.length
    · left; simp [hf, set_state, set_token_state]
    · right; exact List.drop_eq_nil_of_le (by omega)
  obtain ⟨k1, k2, k3⟩ := exec_loop_after_body u settings_zero n _ _ rv_inc_index r3 hq
    (by decide) hr3 he3
  -- the first call
  have hfirst : exec_loop u settings_zero (n + 1) parser (c :: tl) action =
      some (exec_result.after_iteration [Event.msg (c :: tl)] (tl.length + 1, parser.state)
        { parser := { enter_token parser with error := 0, read := (c :: tl).length },
          events := [], dispatched := [] }) := by
    rw [exec_loop_continue _ _ _ _ _ _ _ hs (by rw [h1]), h1, hm]
    rfl
  -- the second call
  cases b with
  | nil =>
    refine ⟨_, exec_result.mk { enter_token parser with error := 0, read := (c :: tl).length }
      [] [], hfirst, rfl, ?_, ?_⟩
    · rw [hr, exec_result.after_iteration, k1]
      simp [same_parse_state, stop_index]
    · rw [hr]
      simp [exec_result.after_iteration, k2, stop_index]
  | cons d b1 =>
    have hst2 : ({ enter_token parser with error := 0, read := (c :: tl).length } :
        syslog_parser_t).state = s_message := by
      simp [enter_token_state, hstate]
    have hts2 : ({ enter_token parser with error := 0, read := (c :: tl).length } :
        syslog_parser_t).token_state = ts_read := by
      simp [enter_token_token_state]
    have hs2 : skips { enter_token parser with error := 0, read := (c :: tl).length } d = false := by
      simp [skips, enter_token_token_state]
    have h2 := loop_body_message u
      { enter_token parser with error := 0, read := (c :: tl).length } d b1 action1 hst2
    rw [enter_token_idem _ hts2] at h2
    have hrest := k3
      { (if stop_index (d :: b1) < (d :: b1).length
            then set_state { enter_token parser with error := 0, read := (c :: tl).length }
              s_msg_complete
            else { enter_token parser with error := 0, read := (c :: tl).length }) with
          error := 0, read := stop_index (d :: b1) }
      (by split <;> simp [set_state, set_token_state])
      (by split <;> simp [set_state, set_token_state])
    have hsecond : exec_loop u settings_zero (n + 1)
        { enter_token parser with error := 0, read := (c :: tl).length } (d :: b1) action1 =
        some (exec_result.after_iteration
          [Event.msg ((d :: b1).take (stop_index (d :: b1)))] (b1.length + 1, (enter_token parser).state)
          (exec_result.mk
            { (if stop_index (d :: b1) < (d :: b1).length
                then set_state { enter_token parser with error := 0, read := (c :: tl).length }
                  s_msg_complete
                else { enter_token parser with error := 0, read := (c :: tl).length }) with
              error := 0, read := stop_index (d :: b1) }
            [] r3.dispatched)) := by
      rw [exec_loop_continue _ _ _ _ _ _ _ hs2 (by rw [h2]), h2]
      simp only []
      rw [hrest]
      rfl
    refine ⟨_, _, hfirst, hsecond, ?_, ?_⟩
    · rw [hr]
      simp only [exec_result.after_iteration, k1]
      unfold same_parse_state
      split <;> simp [set_state, set_token_state]
    · rw [hr]
      simp only [exec_result.after_iteration, k2, List.append_nil, List.singleton_append]
      exact merge_chunks_two _ _

theorem same_parse_state_refl (p : syslog_parser_t) : same_parse_state p p :=
  ⟨rfl, rfl, rfl, rfl, rfl, rfl, rfl⟩

/-- Feeding `a ++ b` to the loop against feeding `a` and then, in a new
call, `b`: with callbacks returning 0 and `sd_value` yielding `rv_advance`,
a run on `a ++ b` that ends with `error` 0 is matched by the two runs. -/
theorem exec_loop_split (u : Undef) (hu : ∀ p k, u.sd_value_result p k = rv_advance)
    (b : List Nat) (action1 : Int) :
    ∀ (fuel : Nat) (parser : syslog_parser_t) (a : List Nat) (action : Int) (r : exec_result),
      (parser.state = s_msg_complete → action ≠ rv_advance) →
      exec_loop u settings_zero fuel parser (a ++ b) action = some r → r.parser.error = 0 →
      ∃ r1 r2, exec_loop u settings_zero fuel parser a action = some r1 ∧
        exec_loop u settings_zero fuel r1.parser b action1 = some r2 ∧
        same_parse_state r2.parser r.parser ∧
        merge_chunks (r1.events ++ r2.events) = merge_chunks r.events := by
  intro fuel
  induction fuel with
  | zero => intro parser a action r _ h; simp [exec_loop] at h
  | succ n ih =>
    intro parser a action r hinv h he
    cases a with
    | nil =>
      simp only [List.nil_append] at h
      exact ⟨_, r, exec_loop_nil _ _ _ _ _,
        exec_loop_action_irrelevant u settings_zero _ _ _ _ action1 r hinv h he,
        same_parse_state_refl _, by simp⟩
    | cons c tl =>
      simp only [List.cons_append] at h
      by_cases hs : skips parser c = true
      · rw [exec_loop_skip _ _ _ _ _ _ _ hs] at h
        obtain ⟨r1, r2, k1, k2, k3, k4⟩ := ih parser tl action r hinv h he
        exact ⟨r1, r2, by rw [exec_loop_skip _ _ _ _ _ _ _ hs]; exact k1,
          exec_loop_mono u settings_zero n _ _ _ _ 1 k2, k3, k4⟩
      · have hs : skips parser c = false := by simpa using hs
        -- the step shared by every handler that leaves what follows `a` alone
        have key :
            loop_body u settings_zero parser c (tl ++ b) action =
              { loop_body u settings_zero parser c tl action with
                rest := (loop_body u settings_zero parser c tl action).rest ++ b } →
            ((loop_body u settings_zero parser c tl action).exit_exec = true →
              (loop_body u settings_zero parser c tl action).parser.error ≠ 0) →
            ∃ r1 r2, exec_loop u settings_zero (n + 1) parser (c :: tl) action = some r1 ∧
              exec_loop u settings_zero (n + 1) r1.parser b action1 = some r2 ∧
              same_parse_state r2.parser r.parser ∧
              merge_chunks (r1.events ++ r2.events) = merge_chunks r.events := by
          intro e hexit
          by_cases hx : (loop_body u settings_zero parser c tl action).exit_exec = true
          · have hx2 : (loop_body u settings_zero parser c (tl ++ b) action).exit_exec = true := by
              rw [e]; exact hx
            rw [exec_loop_exit _ _ _ _ _ _ _ hs hx2] at h
            simp at h
            subst h
            simp only [e] at he
            exact absurd he (hexit hx)
          · have hx : (loop_body u settings_zero parser c tl action).exit_exec = false := by
              simpa using hx
            have hx2 : (loop_body u settings_zero parser c (tl ++ b) action).exit_exec = false := by
              rw [e]; exact hx
            rw [exec_loop_continue _ _ _ _ _ _ _ hs hx2, e] at h
            simp only [] at h
            obtain ⟨r3, hr3, hr⟩ := exec_loop_map_some h
            have he3 : r3.parser.error = 0 := by rw [hr] at he; exact he
            obtain ⟨j1, _, _⟩ := loop_body_keeps_directive u settings_zero parser c tl action hinv
            obtain ⟨r1, r2, k1, k2, k3, k4⟩ := ih _ _ _ r3 j1 hr3 he3
            refine ⟨exec_result.after_iteration
              (loop_body u settings_zero parser c tl action).events (tl.length + 1, parser.state) r1, r2,
              ?_, exec_loop_mono u settings_zero n _ _ _ _ 1 k2, ?_, ?_⟩
            · rw [exec_loop_continue _ _ _ _ _ _ _ hs hx, k1]
              rfl
            · rw [hr]; exact k3
            · rw [hr]
              simp only [exec_result.after_iteration, List.append_assoc]
              exact merge_chunks_append_congr _ _ _ k4
        by_cases hh : has_handler parser.state = true
        · by_cases hm : parser.state = s_message
          · by_cases hlf : stop_index (c :: tl) < (c :: tl).length
            · obtain ⟨e, hx⟩ := loop_body_append_message u parser c tl b action hm hlf
              exact key e (fun hx1 => by rw [hx] at hx1; simp at hx1)
            · exact exec_loop_split_body u n parser c tl b action action1 r hm hs hlf h he
          · obtain ⟨e, hx⟩ := loop_body_append_head u parser c tl b action hu hh hm
            exact key e hx
        · have hh : has_handler parser.state = false := by simpa using hh
          obtain ⟨k1, k2⟩ := loop_body_no_handler u settings_zero parser c (tl ++ b) action hh hinv
          rw [exec_loop_exit _ _ _ _ _ _ _ hs k1] at h
          simp at h
          subst h
          exact absurd he k2

/-! ## Runs that read no indeterminate value -/

/-- A handler other than `sd_value` reads neither indeterminate value. -/
theorem loop_body_undef_irrelevant (u u1 : Undef) (settings : syslog_parser_settings)
    (parser : syslog_parser_t) (c : Nat) (tl : List Nat) (action action1 : Int)
    (hh : has_handler parser.state = true) (hv : parser.state ≠ s_sd_value) :
    loop_body u settings parser c tl action = loop_body u1 settings parser c tl action1 := by
  have hd : dispatch u settings (enter_token parser) c (c :: tl) action =
      dispatch u1 settings (enter_token parser) c (c :: tl) action1 := by
    have hh1 : has_handler (enter_token parser).state = true := by
      rw [enter_token_state]; exact hh
    have hv1 : (enter_token parser).state ≠ s_sd_value := by
      rw [enter_token_state]; exact hv
    generalize enter_token parser = q at hh1 hv1
    obtain ⟨fl, ts, st, er, hd, ml, rd, bf⟩ := q
    cases st <;> simp [has_handler] at hh1 hv1 <;> rfl
  simp only [loop_body, hd]

/-- A run that hands bytes only to handlers other than `sd_value` is the
same for all values of the indeterminate locals. -/
theorem exec_loop_undef_irrelevant (u u1 : Undef) (settings : syslog_parser_settings) :
    ∀ (fuel : Nat) (parser : syslog_parser_t) (data : List Nat) (action action1 : Int)
      (r : exec_result),
      exec_loop u settings fuel parser data action = some r →
      (∀ e ∈ r.dispatched, has_handler e.2 = true ∧ e.2 ≠ s_sd_value) →
      exec_loop u1 settings fuel parser data action1 = some r := by
  intro fuel
  induction fuel with
  | zero => intro parser data action action1 r h; simp [exec_loop] at h
  | succ n ih =>
    intro parser data action action1 r h hd
    cases data with
    | nil => simpa [exec_loop] using h
    | cons c tl =>
      by_cases hs : skips parser c = true
      · rw [exec_loop_skip _ _ _ _ _ _ _ hs] at h ⊢
        exact ih _ _ _ _ _ h hd
      · have hs : skips parser c = false := by simpa using hs
        have hst : has_handler parser.state = true ∧ parser.state ≠ s_sd_value := by
          by_cases hx : (loop_body u settings parser c tl action).exit_exec = true
          · rw [exec_loop_exit _ _ _ _ _ _ _ hs hx] at h
            simp at h
            subst h
            exact hd (tl.length + 1, parser.state) (by simp)
          · have hx : (loop_body u settings parser c tl action).exit_exec = false := by
              simpa using hx
            rw [exec_loop_continue _ _ _ _ _ _ _ hs hx] at h
            obtain ⟨r3, _, hr⟩ := exec_loop_map_some h
            subst hr
            exact hd (tl.length + 1, parser.state) (by simp [exec_result.after_iteration])
        have e := loop_body_undef_irrelevant u u1 settings parser c tl action action1 hst.1 hst.2
        by_cases hx : (loop_body u settings parser c tl action).exit_exec = true
        · rw [exec_loop_exit _ _ _ _ _ _ _ hs hx] at h
          rw [exec_loop_exit _ _ _ _ _ _ _ hs (by rw [← e]; exact hx), ← e]
          exact h
        · have hx : (loop_body u settings parser c tl action).exit_exec = false := by
            simpa using hx
          rw [exec_loop_continue _ _ _ _ _ _ _ hs hx] at h
          rw [exec_loop_continue _ _ _ _ _ _ _ hs (by rw [← e]; exact hx), ← e]
          obtain ⟨r3, hr3, hr⟩ := exec_loop_map_some h
          subst hr
          rw [ih _ _ _ _ r3 hr3 (fun x hx1 => hd x (by simp [exec_result.after_iteration, hx1]))]
          rfl

/-- Every call of `uslg_parser_exec` in a sequence of calls keeps the
buffer invariant. -/
theorem exec_calls_buffer_ok (fuel : Nat) (u : Undef) (settings : syslog_parser_settings) :
    ∀ (slices : List (List Nat)) (parser p : syslog_parser_t),
      pbuffer_ok parser.buffer → exec_calls fuel u settings parser slices = some p →
      pbuffer_ok p.buffer := by
  intro slices
  induction slices with
  | nil =>
    intro parser p h hp
    simp [exec_calls] at hp
    subst hp; exact h
  | cons s rest ih =>
    intro parser p h hp
    simp only [exec_calls] at hp
    cases hr : uslg_parser_exec fuel u settings parser s with
    | none => simp [hr] at hp
    | some r =>
      simp only [hr] at hp
      exact ih r.parser p
        (exec_loop_invariant u settings (fun q => pbuffer_ok q.buffer)
          (fun q c tl a hq => loop_body_buffer_ok u settings q c tl a hq) fuel parser s u.action0 r
          h hr) hp

/-! ## The loop after some iterations -/

/-- A run is its first `n` iterations followed by the run from the loop
state they lead to. -/
theorem exec_loop_after_steps (u : Undef) (settings : syslog_parser_settings) (m : Nat) :
    ∀ (n : Nat) (parser : syslog_parser_t) (data : List Nat) (action : Int) (st : loop_state),
      loop_steps u settings n parser data action = some st →
      exec_loop u settings (n + m) parser data action =
        (exec_loop u settings m st.parser st.rest st.action).map
          (fun r => { parser := r.parser, events := st.events ++ r.events,
                      dispatched := st.dispatched ++ r.dispatched }) := by
  intro n
  induction n with
  | zero =>
    intro parser data action st h
    simp [loop_steps] at h
    subst h
    cases hr : exec_loop u settings m parser data action <;> simp [hr]
  | succ k ih =>
    intro parser data action st h
    have e : k + 1 + m = (k + m) + 1 := by omega
    rw [e]
    cases data with
    | nil => simp [loop_steps] at h
    | cons c tl =>
      by_cases hs : skips parser c = true
      · simp only [loop_steps, hs, if_true, skip_byte_eq] at h
        rw [exec_loop_skip _ _ _ _ _ _ _ hs]
        exact ih _ _ _ _ h
      · have hs : skips parser c = false := by simpa using hs
        by_cases hx : (loop_body u settings parser c tl action).exit_exec = true
        · simp [loop_steps, hs, hx] at h
        · have hx : (loop_body u settings parser c tl action).exit_exec = false := by
            simpa using hx
          simp only [loop_steps, hs, hx, Bool.false_eq_true, if_false] at h
          cases hst : loop_steps u settings k (loop_body u settings parser c tl action).parser
              (loop_body u settings parser c tl action).rest
              (loop_body u settings parser c tl action).action with
          | none => simp [hst] at h
          | some st1 =>
            simp only [hst, Option.map_some', Option.some.injEq] at h
            subst h
            rw [exec_loop_continue _ _ _ _ _ _ _ hs hx, ih _ _ _ st1 hst]
            cases hr : exec_loop u settings m st1.parser st1.rest st1.action <;>
              simp [hr, loop_state.after_iteration, exec_result.after_iteration]

/-- When the handler of the current state leaves `error` non-zero, the
loop ends in this iteration: the parser is as the handler left it and only
the handler's callbacks fire. -/
theorem exec_loop_error_exit (u : Undef) (settings : syslog_parser_settings) (fuel : Nat)
    (parser : syslog_parser_t) (next_byte : Nat) (tl : List Nat) (action : Int)
    (hskip : skips parser next_byte = false)
    (hh : has_handler parser.state = true)
    (herr : (dispatch u settings (enter_token parser) next_byte (next_byte :: tl) action).parser.error
      ≠ 0) :
    ∃ r, exec_loop u settings (fuel + 1) parser (next_byte :: tl) action = some r ∧
      r.parser = (dispatch u settings (enter_token parser) next_byte (next_byte :: tl) action).parser ∧
      r.events = (dispatch u settings (enter_token parser) next_byte (next_byte :: tl) action).events ∧
      r.dispatched = [(tl.length + 1, parser.state)] ∧
      r.retval =
        (dispatch u settings (enter_token parser) next_byte (next_byte :: tl) action).parser.error ∧
      r.retval ≠ 0 := by
  have hh1 : has_handler (enter_token parser).state = true := by rw [enter_token_state]; exact hh
  have hact := apply_action_unchanged settings
    (dispatch u settings (enter_token parser) next_byte (next_byte :: tl) action).parser
    (dispatch u settings (enter_token parser) next_byte (next_byte :: tl) action).action
    (next_byte :: tl)
    (fun hc => by
      rw [dispatch_complete_action u settings _ _ _ _ hh1 hc]; decide)
  have hx : (loop_body u settings parser next_byte tl action).exit_exec = true := by
    simp [loop_body, herr]
  refine ⟨_, exec_loop_exit _ _ _ _ _ _ _ hskip hx, ?_, ?_, rfl, ?_, ?_⟩
  · exact hact.1
  · simp [loop_body, hact.2]
  · simp [exec_result.retval, loop_body, hact.1]
  · simp only [exec_result.retval, loop_body, hact.1]
    exact_mod_cast herr

/-! ## Concrete runs for every value of the indeterminate locals -/

/-- A concrete run with `undef_advance` that hands bytes only to handlers
other than `sd_value` gives the same observation for every `Undef`. -/
theorem exec_for_all_undef {α : Type} (f : exec_result → α) (v : α) (fuel : Nat)
    (settings : syslog_parser_settings) (parser : syslog_parser_t) (data : List Nat)
    (h : ∃ r, uslg_parser_exec fuel undef_advance settings parser data = some r ∧
      (∀ e ∈ r.dispatched, has_handler e.2 = true ∧ e.2 ≠ s_sd_value) ∧ f r = v)
    (u : Undef) :
    (uslg_parser_exec fuel u settings parser data).map f = some v := by
  obtain ⟨r, h1, h2, h3⟩ := h
  rw [uslg_parser_exec,
    exec_loop_undef_irrelevant undef_advance u settings _ _ _ _ u.action0 r h1 h2]
  simp only [Option.map_some', h3]

/-- A property of the parser that every pass through the loop body keeps,
and under which no pass fires a callback, is kept by the whole loop, which
then fires no callback. -/
theorem exec_loop_quiet (u : Undef) (settings : syslog_parser_settings)
    (P : syslog_parser_t → Prop)
    (hbody : ∀ parser c tl action, P parser →
      P (loop_body u settings parser c tl action).parser ∧
      (loop_body u settings parser c tl action).events = []) :
    ∀ (fuel : Nat) (parser : syslog_parser_t) (data : List Nat) (action : Int) (r : exec_result),
      P parser → exec_loop u settings fuel parser data action = some r →
      P r.parser ∧ r.events = [] := by
  intro fuel
  induction fuel with
  | zero => intro parser data action r _ h; simp [exec_loop] at h
  | succ n ih =>
    intro parser data action r hP h
    cases data with
    | nil =>
      simp [exec_loop] at h
      subst h; exact ⟨hP, rfl⟩
    | cons c tl =>
      by_cases hs : skips parser c = true
      · rw [exec_loop_skip _ _ _ _ _ _ _ hs] at h
        exact ih _ _ _ _ hP h
      · have hs : skips parser c = false := by simpa using hs
        by_cases hx : (loop_body u settings parser c tl action).exit_exec = true
        · rw [exec_loop_exit _ _ _ _ _ _ _ hs hx] at h
          simp at h
          subst h; exact hbody _ _ _ _ hP
        · have hx : (loop_body u settings parser c tl action).exit_exec = false := by
            simpa using hx
          rw [exec_loop_continue _ _ _ _ _ _ _ hs hx] at h
          obtain ⟨r1, hr1, hr⟩ := exec_loop_map_some h
          subst hr
          have := ih _ _ _ r1 (hbody _ _ _ _ hP).1 hr1
          exact ⟨this.1, by simp [exec_result.after_iteration, (hbody _ _ _ _ hP).2, this.2]⟩

theorem flags_escaped_set (fl : Fin 8) : (to_flags (fl.val ||| F_ESCAPED)).val &&& F_ESCAPED ≠ 0 := by
  revert fl; decide

theorem flags_escaped_again (fl : Fin 8) (h : fl.val &&& F_ESCAPED ≠ 0) :
    to_flags (fl.val ||| F_ESCAPED) = fl := by
  revert fl; decide

/-- With the escape flag set, a pass of the loop body in the
structured-data-value state keeps the state and the flag and fires no
callback. -/
theorem loop_body_escaped (u : Undef) (settings : syslog_parser_settings)
    (parser : syslog_parser_t) (c : Nat) (tl : List Nat) (action : Int)
    (h : parser.state = s_sd_value ∧ parser.flags.val &&& F_ESCAPED ≠ 0) :
    ((loop_body u settings parser c tl action).parser.state = s_sd_value ∧
      (loop_body u settings parser c tl action).parser.flags.val &&& F_ESCAPED ≠ 0) ∧
    (loop_body u settings parser c tl action).events = [] := by
  obtain ⟨fl, ts, st, er, hd, ml, rd, bf⟩ := parser
  obtain ⟨h1, h2⟩ := h
  simp only at h1 h2
  subst h1
  have h3 := flags_escaped_set fl
  have hst : (enter_token
      { flags := fl, token_state := ts, state := s_sd_value, error := er, msg_head := hd,
        message_length := ml, read := rd, buffer := bf }).flags = fl := by
    simp only [enter_token, set_token_state]; split <;> rfl
  simp only [loop_body, dispatch, enter_token_state, sd_value, apply_action, hst, h2]
  by_cases c1 : c = 92
  · simp only [c1, if_true, enter_token_state]
    (repeat' split) <;> simp_all [enter_token_state]
  · by_cases c2 : c = 34
    · simp only [c2]
      (repeat' split) <;> simp_all [enter_token_state, flags_escaped_again]
    · simp only [c1, c2, if_false, store_byte]
      (repeat' split) <;> simp_all [enter_token_state]

theorem decimal_from_ge (digits : List Nat) : ∀ v, v ≤ decimal_from v digits := by
  induction digits with
  | nil => intro v; exact Nat.le_refl _
  | cons d tl ih =>
    intro v
    have := ih (v * 10 + (d - 48))
    simp only [decimal_from, List.foldl_cons] at this ⊢
    omega

/-- One digit in the octet-count state, when the new value stays below
`ULONG_MAX`: the declared length takes the new value and the loop goes on. -/
theorem loop_body_octet_digit (u : Undef) (settings : syslog_parser_settings)
    (parser : syslog_parser_t) (d : Nat) (tl : List Nat) (action : Int)
    (hst : parser.state = s_octet_count) (hd : IS_NUM d = true)
    (hv : parser.message_length * 10 + (d - 48) < ULONG_MAX) :
    (loop_body u settings parser d tl action).parser.state = s_octet_count ∧
    (loop_body u settings parser d tl action).parser.error = parser.error ∧
    (loop_body u settings parser d tl action).parser.message_length =
      parser.message_length * 10 + (d - 48) ∧
    (loop_body u settings parser d tl action).events = [] ∧
    (loop_body u settings parser d tl action).rest = tl ∧
    (loop_body u settings parser d tl action).exit_exec = decide (parser.error ≠ 0) := by
  obtain ⟨fl, ts, st, er, hd0, ml, rd, bf⟩ := parser
  simp only at hst hv
  subst hst
  have h1 : (ml * 10) % U64 = ml * 10 := Nat.mod_eq_of_lt (by simp only [U64, ULONG_MAX] at *; omega)
  have h2 : (ml * 10 + (d - 48)) % U64 = ml * 10 + (d - 48) :=
    Nat.mod_eq_of_lt (by simp only [U64, ULONG_MAX] at *; omega)
  have h3 : ¬ (ml * 10 + (d - 48) < ml) := by omega
  have h4 : ¬ (ml * 10 + (d - 48) = ULONG_MAX) := by omega
  cases ts <;>
    simp [loop_body, dispatch, enter_token, set_token_state, octet_count, hd, h1, h2, h3, h4,
      apply_action, rv_advance]

theorem exec_loop_octet_digits (u : Undef) (settings : syslog_parser_settings) :
    ∀ (digits : List Nat) (parser : syslog_parser_t) (action : Int),
      parser.state = s_octet_count → parser.error = 0 →
      (∀ d ∈ digits, IS_NUM d = true) →
      decimal_from parser.message_length digits < ULONG_MAX →
      ∃ r, exec_loop u settings (digits.length + 1) parser digits action = some r ∧
        r.parser.error = 0 ∧ r.parser.message_length = decimal_from parser.message_length digits ∧
        r.parser.state = s_octet_count ∧ r.events = [] := by
  intro digits
  induction digits with
  | nil => intro parser action hst he _ _; exact ⟨_, rfl, he, rfl, hst, rfl⟩
  | cons d tl ih =>
    intro parser action hst he hdig hv
    have hd : IS_NUM d = true := hdig d (List.mem_cons_self _ _)
    have hv1 : parser.message_length * 10 + (d - 48) < ULONG_MAX := by
      have := decimal_from_ge tl (parser.message_length * 10 + (d - 48))
      simp only [decimal_from, List.foldl_cons] at this hv
      omega
    obtain ⟨h1, h2, h3, h4, h5, h6⟩ := loop_body_octet_digit u settings parser d tl action hst hd hv1
    have hs : skips parser d = false := by
      simp [IS_NUM] at hd
      have a : d ≠ 32 := by omega
      have b : d ≠ 9 := by omega
      simp [skips, a, b]
    have hx : (loop_body u settings parser d tl action).exit_exec = false := by
      rw [h6]; simp [he]
    have hv2 : decimal_from (loop_body u settings parser d tl action).parser.message_length tl <
        ULONG_MAX := by
      rw [h3]; simpa only [decimal_from, List.foldl_cons] using hv
    obtain ⟨r, hr, e1, e2, e3, e4⟩ := ih (loop_body u settings parser d tl action).parser
      (loop_body u settings parser d tl action).action h1 (by rw [h2]; exact he)
      (fun x hx => hdig x (List.mem_cons_of_mem _ hx)) hv2
    refine ⟨exec_result.after_iteration (loop_body u settings parser d tl action).events
      (tl.length + 1, parser.state) r, ?_, e1, ?_, e3, ?_⟩
    · rw [List.length_cons, exec_loop_continue _ _ _ _ _ _ _ hs hx, h5, hr]; rfl
    · show r.parser.message_length = _
      rw [e2, h3]; simp only [decimal_from, List.foldl_cons]
    · simp [exec_result.after_iteration, h4, e4]

theorem take_set_succ (c : Nat) : ∀ (l : List Nat) (k : Nat), k < l.length →
    (l.set k c).take (k + 1) = l.take k ++ [c] := by
  intro l
  induction l with
  | nil => intro k h; simp at h
  | cons x xs ih =>
    intro k h
    cases k with
    | zero => simp
    | succ j =>
      have := ih j (by simpa using h)
      simp [List.set, this]

theorem loop_steps_continue (u : Undef) (settings : syslog_parser_settings) (n : Nat)
    (parser : syslog_parser_t) (c : Nat) (tl : List Nat) (action : Int)
    (h : skips parser c = false)
    (hx : (loop_body u settings parser c tl action).exit_exec = false) :
    loop_steps u settings (n + 1) parser (c :: tl) action =
      (loop_steps u settings n (loop_body u settings parser c tl action).parser
        (loop_body u settings parser c tl action).rest
        (loop_body u settings parser c tl action).action).map
        (loop_state.after_iteration (loop_body u settings parser c tl action).events
          (tl.length + 1, parser.state)) := by
  simp [loop_steps, h, hx]

/-- The first `n + m` iterations are the first `n` followed by `m` more. -/
theorem loop_steps_add (u : Undef) (settings : syslog_parser_settings) (m : Nat) :
    ∀ (n : Nat) (parser : syslog_parser_t) (data : List Nat) (action : Int) (st : loop_state),
      loop_steps u settings n parser data action = some st →
      loop_steps u settings (n + m) parser data action =
        (loop_steps u settings m st.parser st.rest st.action).map
          (fun r => { parser := r.parser, rest := r.rest, action := r.action,
                      events := st.events ++ r.events,
                      dispatched := st.dispatched ++ r.dispatched }) := by
  intro n
  induction n with
  | zero =>
    intro parser data action st h
    simp [loop_steps] at h
    subst h
    cases hr : loop_steps u settings m parser data action <;> simp [hr]
  | succ k ih =>
    intro parser data action st h
    have e : k + 1 + m = (k + m) + 1 := by omega
    rw [e]
    cases data with
    | nil => simp [loop_steps] at h
    | cons c tl =>
      by_cases hs : skips parser c = true
      · simp only [loop_steps, hs, if_true, skip_byte_eq] at h ⊢
        exact ih _ _ _ _ h
      · have hs : skips parser c = false := by simpa using hs
        by_cases hx : (loop_body u settings parser c tl action).exit_exec = true
        · simp [loop_steps, hs, hx] at h
        · have hx : (loop_body u settings parser c tl action).exit_exec = false := by
            simpa using hx
          simp only [loop_steps, hs, hx, Bool.false_eq_true, if_false] at h
          cases hst : loop_steps u settings k (loop_body u settings parser c tl action).parser
              (loop_body u settings parser c tl action).rest
              (loop_body u settings parser c tl action).action with
          | none => simp [hst] at h
          | some st1 =>
            simp only [hst, Option.map_some', Option.some.injEq] at h
            subst h
            rw [loop_steps_continue _ _ _ _ _ _ _ hs hx, ih _ _ _ st1 hst]
            cases hr : loop_steps u settings m st1.parser st1.rest st1.action <;>
              simp [hr, loop_state.after_iteration]

/-- In a head-token state a byte that is not whitespace is stored at the
cursor when there is room for it. -/
theorem loop_body_store (u : Undef) (settings : syslog_parser_settings)
    (parser : syslog_parser_t) (nx : syslog_state) (c : Nat) (tl : List Nat) (action : Int)
    (hst : head_token_next parser.state = some nx) (he : parser.error = 0)
    (hc : IS_WS c = false)
    (hroom : parser.buffer.position + 1 < parser.buffer.size)
    (hsz : parser.buffer.size ≤ U64) :
    loop_body u settings parser c tl action =
      { parser := { parser with
          token_state := ts_read,
          buffer := { bytes := parser.buffer.bytes.set parser.buffer.position c,
                      position := parser.buffer.position + 1,
                      size := parser.buffer.size } },
        events := [], rest := tl, action := rv_advance, exit_exec := false } := by
  obtain ⟨fl, ts, st, er, hd0, ml, rd, ⟨bs, pos, sz⟩⟩ := parser
  simp only at hst he hroom hsz
  subst he
  have hm : (pos + 1) % U64 = pos + 1 := Nat.mod_eq_of_lt (by omega)
  cases st <;> simp [head_token_next] at hst <;> subst hst <;> cases ts <;>
    simp [loop_body, dispatch, enter_token, set_token_state, parse_msg_head_part, hc,
      store_byte, store_byte_in_pbuffer, hm, hroom, apply_action, rv_advance]

/-- In a head-token state, with the token state reading, a space commits
the buffer to the head field of the state and moves to the next state. -/
theorem loop_body_commit (u : Undef) (settings : syslog_parser_settings)
    (parser : syslog_parser_t) (nx : syslog_state) (tl : List Nat) (action : Int)
    (hst : head_token_next parser.state = some nx) (he : parser.error = 0)
    (hts : parser.token_state = ts_read) :
    loop_body u settings parser 32 tl action =
      { parser := set_state (set_str_field parser) nx,
        events := [], rest := tl, action := rv_advance, exit_exec := false } := by
  obtain ⟨fl, ts, st, er, hd0, ml, rd, ⟨bs, pos, sz⟩⟩ := parser
  simp only at hst he hts
  subst he; subst hts
  cases st <;> simp [head_token_next] at hst <;> subst hst <;>
    simp [loop_body, dispatch, enter_token, set_token_state, parse_msg_head_part, IS_WS,
      set_state, set_str_field, reset_buffer, reset_pbuffer, apply_action, rv_advance]

/-- A non-empty token without whitespace, met in a head-token state with
room in the buffer, is stored byte by byte from the cursor on. -/
theorem loop_steps_store (u : Undef) (settings : syslog_parser_settings) (nx : syslog_state)
    (rest : List Nat) :
    ∀ (tl : List Nat) (c : Nat) (parser : syslog_parser_t) (action : Int),
      head_token_next parser.state = some nx → parser.error = 0 →
      IS_WS c = false → (∀ x ∈ tl, IS_WS x = false) →
      parser.buffer.position + (tl.length + 1) < parser.buffer.size →
      parser.buffer.size ≤ U64 → parser.buffer.bytes.length = parser.buffer.size →
      ∃ bs D, loop_steps u settings (tl.length + 1) parser (c :: (tl ++ rest)) action =
          some { parser := { parser with
                   token_state := ts_read,
                   buffer := { bytes := bs,
                               position := parser.buffer.position + (tl.length + 1),
                               size := parser.buffer.size } },
                 rest := rest, action := rv_advance, events := [], dispatched := D } ∧
        bs.length = parser.buffer.bytes.length ∧
        bs.take (parser.buffer.position + (tl.length + 1)) =
          parser.buffer.bytes.take parser.buffer.position ++ c :: tl := by
  intro tl
  induction tl with
  | nil =>
    intro c parser action hst he hc _ hroom hsz hlen
    have hs := not_ws_not_skipped parser c hc
    have hb := loop_body_store u settings parser nx c rest action hst he hc
      (by simpa using hroom) hsz
    refine ⟨parser.buffer.bytes.set parser.buffer.position c, [(rest.length + 1, parser.state)],
      ?_, by simp, ?_⟩
    · rw [List.length_nil, List.nil_append, loop_steps_continue _ _ _ _ _ _ _ hs (by rw [hb]), hb]
      rfl
    · exact take_set_succ c _ _ (by simp at hroom; omega)
  | cons c2 tl2 ih =>
    intro c parser action hst he hc htl hroom hsz hlen
    have hs := not_ws_not_skipped parser c hc
    simp only [List.length_cons] at hroom
    have hb := loop_body_store u settings parser nx c (c2 :: (tl2 ++ rest)) action hst he hc
      (by omega) hsz
    obtain ⟨bs, D, h1, h2, h3⟩ := ih c2
      { parser with
        token_state := ts_read,
        buffer := { bytes := parser.buffer.bytes.set parser.buffer.position c,
                    position := parser.buffer.position + 1,
                    size := parser.buffer.size } } rv_advance hst he
      (htl c2 (List.mem_cons_self _ _)) (fun x hx => htl x (List.mem_cons_of_mem _ hx))
      (by simp only; omega) hsz (by simp only [List.length_set]; exact hlen)
    refine ⟨bs, ((c2 :: (tl2 ++ rest)).length + 1, parser.state) :: D, ?_, ?_, ?_⟩
    · rw [List.length_cons, List.cons_append,
        loop_steps_continue _ _ _ _ _ _ _ hs (by rw [hb]), hb]
      simp only [h1, Option.map_some', loop_state.after_iteration, List.nil_append]
      have e : parser.buffer.position + 1 + (tl2.length + 1) =
          parser.buffer.position + (tl2.length + 1 + 1) := by omega
      simp only [e]
    · simpa using h2
    · have e : parser.buffer.position + 1 + (tl2.length + 1) =
          parser.buffer.position + (tl2.length + 1 + 1) := by omega
      simp only [e] at h3
      rw [List.length_cons, h3, take_set_succ c _ _ (by omega)]
      simp

/-- A non-empty head token followed by a space, met with an empty buffer:
the token is committed to the head field of the state, the cursor is back
at 0 and the parser stands in the next state. -/
theorem loop_steps_token (u : Undef) (settings : syslog_parser_settings) (nx : syslog_state)
    (rest tok : List Nat) (parser : syslog_parser_t) (action : Int)
    (hst : head_token_next parser.state = some nx) (he : parser.error = 0)
    (hne : tok ≠ []) (hws : ∀ x ∈ tok, IS_WS x = false)
    (hpos : parser.buffer.position = 0)
    (hroom : tok.length < parser.buffer.size)
    (hsz : parser.buffer.size ≤ U64) (hlen : parser.buffer.bytes.length = parser.buffer.size) :
    ∃ bs D, loop_steps u settings (tok.length + 1) parser (tok ++ 32 :: rest) action =
        some { parser := set_state (set_str_field { parser with
                   token_state := ts_read,
                   buffer := { bytes := bs, position := tok.length,
                               size := parser.buffer.size } }) nx,
               rest := rest, action := rv_advance, events := [], dispatched := D } ∧
      bs.length = parser.buffer.size ∧ bs.take tok.length = tok := by
  cases tok with
  | nil => exact absurd rfl hne
  | cons c tl =>
    obtain ⟨bs, D, h1, h2, h3⟩ := loop_steps_store u settings nx (32 :: rest) tl c parser action
      hst he (hws c (List.mem_cons_self _ _)) (fun x hx => hws x (List.mem_cons_of_mem _ hx))
      (by rw [hpos]; simpa using hroom) hsz hlen
    rw [hpos] at h1 h3
    simp only [Nat.zero_add, List.take_zero, List.nil_append] at h1 h3
    refine ⟨bs, D ++ [(rest.length + 1, parser.state)], ?_, by rw [h2, hlen], by simpa using h3⟩
    have hc := loop_body_commit u settings
      { parser with
        token_state := ts_read,
        buffer := { bytes := bs, position := tl.length + 1, size := parser.buffer.size } }
      nx rest rv_advance hst he rfl
    have hs : skips { parser with
        token_state := ts_read,
        buffer := { bytes := bs, position := tl.length + 1, size := parser.buffer.size } } 32 =
        false := by simp [skips]
    rw [List.cons_append, List.length_cons, loop_steps_add u settings 1 _ _ _ _ _ h1]
    simp only []
    rw [loop_steps_continue _ _ _ _ _ _ _ hs (by rw [hc]), hc]
    simp [loop_steps, loop_state.after_iteration]

/-- The outcome of `loop_steps_token` in terms of the parser it leads to:
the state is the next one, `error` is still 0, the cursor is 0, the buffer
keeps its capacity and the head model has the token in the field of the
state the token was met in. -/
theorem loop_steps_token_ready (u : Undef) (settings : syslog_parser_settings)
    (nx : syslog_state) (rest tok : List Nat) (parser : syslog_parser_t) (action : Int)
    (hst : head_token_next parser.state = some nx) (he : parser.error = 0)
    (hne : tok ≠ []) (hws : ∀ x ∈ tok, IS_WS x = false)
    (hpos : parser.buffer.position = 0)
    (hroom : tok.length < parser.buffer.size)
    (hsz : parser.buffer.size ≤ U64) (hlen : parser.buffer.bytes.length = parser.buffer.size) :
    ∃ q D, loop_steps u settings (tok.length + 1) parser (tok ++ 32 :: rest) action =
        some { parser := q, rest := rest, action := rv_advance, events := [], dispatched := D } ∧
      q.state = nx ∧ q.error = 0 ∧ q.buffer.position = 0 ∧
      q.buffer.size = parser.buffer.size ∧ q.buffer.bytes.length = q.buffer.size ∧
      q.msg_head = (set_str_field { parser with
        buffer := { bytes := tok, position := tok.length, size := parser.buffer.size } }).msg_head := by
  obtain ⟨bs, D, h1, h2, h3⟩ := loop_steps_token u settings nx rest tok parser action hst he hne
    hws hpos hroom hsz hlen
  refine ⟨_, D, h1, ?_, ?_, ?_, ?_, ?_, ?_⟩
  · simp [set_state, set_token_state]
  · simpa [set_state, set_token_state, set_str_field, reset_buffer] using he
  · simp [set_state, set_token_state, set_str_field, reset_buffer, reset_pbuffer]
  · simp [set_state, set_token_state, set_str_field, reset_buffer, reset_pbuffer]
  · simpa [set_state, set_token_state, set_str_field, reset_buffer, reset_pbuffer] using h2
  · simp [set_state, set_token_state, set_str_field, reset_buffer, reset_pbuffer,
      copy_parser_buffer, copy_pbuffer, h3]

/-- In the version state a byte that is not a digit moves the parser to the
timestamp state and is consumed: the directive is `rv_advance`. -/
theorem loop_body_version_other (u : Undef) (settings : syslog_parser_settings)
    (parser : syslog_parser_t) (c : Nat) (tl : List Nat) (action : Int)
    (hst : parser.state = s_version) (he : parser.error = 0) (hc : IS_NUM c = false) :
    loop_body u settings parser c tl action =
      { parser := { parser with state := s_timestamp, token_state := ts_before },
        events := [], rest := tl, action := rv_advance, exit_exec := false } := by
  obtain ⟨fl, ts, st, er, hd0, ml, rd, bf⟩ := parser
  simp only at hst he
  subst hst; subst he
  cases ts <;>
    simp [loop_body, dispatch, enter_token, set_token_state, version, hc, set_state,
      apply_action, rv_advance]

/-- One pass through the loop body fires the head-complete callback once
in state `s_sd_start` and not at all in any other state. -/
theorem loop_body_head_count (u : Undef) (settings : syslog_parser_settings)
    (parser : syslog_parser_t) (c : Nat) (tl : List Nat) (action : Int) :
    head_complete_count (loop_body u settings parser c tl action).events =
      if parser.state = s_sd_start then 1 else 0 := by
  obtain ⟨fl, ts, st, er, hd0, ml, rd, bf⟩ := parser
  have ha : ∀ (q : syslog_parser_t) (a : Int) (d : List Nat),
      List.countP is_head_complete (apply_action settings q a d).events = 0 := by
    intro q a d
    simp only [apply_action]
    (repeat' split) <;> simp [is_head_complete]
  simp only [head_complete_count, loop_body, List.countP_append, ha, Nat.add_zero]
  cases st <;>
    simp only [dispatch, enter_token_state, msg_start, octet_count, priority_start, priority,
      version, parse_msg_head_part, sd_start, sd_element, sd_field, sd_field_end, sd_value_begin,
      sd_value, read_message, reduceCtorEq, if_false, if_true] <;>
    (repeat' split) <;> simp_all [is_head_complete]

/-- The head-complete callback fires once for each byte handed to the
handler of `s_sd_start`. -/
theorem exec_loop_head_count (u : Undef) (settings : syslog_parser_settings) :
    ∀ (fuel : Nat) (parser : syslog_parser_t) (data : List Nat) (action : Int) (r : exec_result),
      exec_loop u settings fuel parser data action = some r →
      head_complete_count r.events = sd_start_dispatches r.dispatched := by
  intro fuel
  induction fuel with
  | zero => intro parser data action r h; simp [exec_loop] at h
  | succ n ih =>
    intro parser data action r h
    cases data with
    | nil =>
      simp [exec_loop] at h
      subst h; rfl
    | cons c tl =>
      by_cases hs : skips parser c = true
      · rw [exec_loop_skip _ _ _ _ _ _ _ hs] at h
        exact ih _ _ _ _ h
      · have hs : skips parser c = false := by simpa using hs
        have hc := loop_body_head_count u settings parser c tl action
        by_cases hx : (loop_body u settings parser c tl action).exit_exec = true
        · rw [exec_loop_exit _ _ _ _ _ _ _ hs hx] at h
          simp at h
          subst h
          simp only [hc, sd_start_dispatches, List.countP_cons, List.countP_nil]
          split <;> simp_all
        · have hx : (loop_body u settings parser c tl action).exit_exec = false := by
            simpa using hx
          rw [exec_loop_continue _ _ _ _ _ _ _ hs hx] at h
          obtain ⟨r1, hr1, hr⟩ := exec_loop_map_some h
          subst hr
          have h1 := ih _ _ _ r1 hr1
          simp only [head_complete_count, sd_start_dispatches] at h1 hc ⊢
          simp only [exec_result.after_iteration, List.countP_append, List.countP_cons, hc, h1]
          split <;> simp_all
          omega

/-- From structured-data-start, with callbacks returning 0, a body line
that does not begin with a separator, `-` or `[` fires head-complete and
then one body callback. -/
theorem exec_loop_sd_start_line (u : Undef) (parser : syslog_parser_t) (b : List Nat)
    (action : Int) (fuel : Nat)
    (hstate : parser.state = s_sd_start)
    (hlf : 10 ∉ b) (hfirst : ∀ c ∈ b.head?, c ≠ 32 ∧ c ≠ 9 ∧ c ≠ 45 ∧ c ≠ 91) :
    ∃ r, exec_loop u settings_zero (fuel + 3) parser (b ++ [10]) action = some r ∧
      r.events = [Event.msg_head parser.msg_head, Event.msg b] ∧ r.parser.error = 0 ∧
      r.parser.state = s_msg_complete := by
  have hfirst2 : ∀ c ∈ b.head?, c ≠ 32 ∧ c ≠ 9 := fun c hc => ⟨(hfirst c hc).1, (hfirst c hc).2.1⟩
  obtain ⟨c, tl, hd⟩ : ∃ c tl, c :: tl = b ++ [10] := by
    cases b with
    | nil => exact ⟨10, [], rfl⟩
    | cons c tl => exact ⟨c, tl ++ [10], by simp⟩
  have hc : c ≠ 32 ∧ c ≠ 9 ∧ c ≠ 45 ∧ c ≠ 91 := by
    cases b with
    | nil => simp at hd; omega
    | cons d tl2 =>
      simp at hd
      have := hfirst d (by simp)
      rw [hd.1]; exact this
  have hs3 : skips parser c = false := by simp [skips, hc.1, hc.2.1]
  have hb3 : loop_body u settings_zero parser c tl action =
      { parser := set_state { enter_token parser with error := 0 } s_message,
        events := [Event.msg_head parser.msg_head],
        rest := c :: tl, action := rv_rehash, exit_exec := false } := by
    obtain ⟨fl, ts, st, er, hd0, ml, rd, bf⟩ := parser
    simp at hstate
    subst hstate
    cases ts <;>
      simp [loop_body, dispatch, enter_token, set_token_state, sd_start, settings_zero, to_uchar,
        set_state, apply_action, rv_advance, rv_rehash, rv_inc_index, hc.2.2.1, hc.2.2.2]
  obtain ⟨rb, hrb, heb, hvb, hsb⟩ := exec_loop_line u
    (set_state { enter_token parser with error := 0 } s_message) b rv_rehash fuel rfl hlf
    hfirst2
  refine ⟨exec_result.after_iteration [Event.msg_head parser.msg_head]
    (tl.length + 1, parser.state) rb, ?_, ?_, ?_, hsb⟩
  · rw [← hd, exec_loop_continue _ _ _ _ _ _ _ hs3 (by rw [hb3]), hb3]
    simp only []
    rw [hd, hrb]
    rfl
  · simp [exec_result.after_iteration, heb]
  · simpa [exec_result.after_iteration] using hvb

/-- In the structured-data-field state, with callbacks returning 0 and
`error` 0, the closing `]` fires field-identified and sends the parser back
to structured-data-start. -/
theorem loop_body_sd_close (u : Undef) (parser : syslog_parser_t) (tl : List Nat)
    (action : Int) (hstate : parser.state = s_sd_field) (he : parser.error = 0) :
    loop_body u settings_zero parser 93 tl action =
      { parser := set_state (enter_token parser) s_sd_start,
        events := [Event.sd_field (on_data_payload parser)],
        rest := tl, action := rv_advance, exit_exec := false } := by
  obtain ⟨fl, ts, st, er, hd0, ml, rd, bf⟩ := parser
  simp at hstate he
  subst hstate; subst he
  have h93 : IS_ALPHANUM 93 = false := by decide
  cases ts <;>
    simp [loop_body, dispatch, enter_token, set_token_state, sd_field, h93, settings_zero,
      set_state, apply_action, rv_advance, on_data_payload]

/-- A length below 2^31 survives the passage through `int len`. -/
theorem to_size_to_int (n : Nat) (h : n < 2147483648) : to_size (to_int n) = n := by
  have e : (n + 2147483648) % 4294967296 = n + 2147483648 := Nat.mod_eq_of_lt (by omega)
  simp only [to_size, to_int, e, U64]
  omega

/-- A concrete run with `undef_advance` that hands bytes only to handlers
other than `sd_value` is the run for every `Undef`. -/
theorem exec_exists_for_all_undef (P : exec_result → Prop) (fuel : Nat)
    (settings : syslog_parser_settings) (parser : syslog_parser_t) (data : List Nat)
    (h : ∃ r, uslg_parser_exec fuel undef_advance settings parser data = some r ∧
      (∀ e ∈ r.dispatched, has_handler e.2 = true ∧ e.2 ≠ s_sd_value) ∧ P r)
    (u : Undef) :
    ∃ r, uslg_parser_exec fuel u settings parser data = some r ∧ P r := by
  obtain ⟨r, h1, h2, h3⟩ := h
  exact ⟨r, exec_loop_undef_irrelevant undef_advance u settings _ _ _ _ u.action0 r h1 h2, h3⟩

/-- Two successive concrete calls with `undef_advance`, the caller applying
`g` to the parser in between, that hand bytes only to handlers other than
`sd_value`, are the two calls for every `Undef`. -/
theorem exec_twice_for_all_undef (g : syslog_parser_t → syslog_parser_t)
    (P : exec_result → exec_result → Prop) (fuel1 fuel2 : Nat)
    (settings : syslog_parser_settings) (parser : syslog_parser_t) (d1 d2 : List Nat)
    (h : ∃ r1 r2, uslg_parser_exec fuel1 undef_advance settings parser d1 = some r1 ∧
      (∀ e ∈ r1.dispatched, has_handler e.2 = true ∧ e.2 ≠ s_sd_value) ∧
      uslg_parser_exec fuel2 undef_advance settings (g r1.parser) d2 = some r2 ∧
      (∀ e ∈ r2.dispatched, has_handler e.2 = true ∧ e.2 ≠ s_sd_value) ∧ P r1 r2)
    (u : Undef) :
    ∃ r1 r2, uslg_parser_exec fuel1 u settings parser d1 = some r1 ∧
      uslg_parser_exec fuel2 u settings (g r1.parser) d2 = some r2 ∧ P r1 r2 := by
  obtain ⟨r1, r2, h1, h2, h3, h4, h5⟩ := h
  exact ⟨r1, r2, exec_loop_undef_irrelevant undef_advance u settings _ _ _ _ u.action0 r1 h1 h2,
    exec_loop_undef_irrelevant undef_advance u settings _ _ _ _ u.action0 r2 h3 h4, h5⟩

/-- In the structured-data-value state, with callbacks returning 0, `error`
0 and the escape flag clear, a quote fires value-identified and moves to
structured-data-field; when the value that `sd_value` then hands back is
none of the three directives, the driver leaves the loop. -/
theorem loop_body_sd_value_close (u : Undef) (parser : syslog_parser_t) (tl : List Nat)
    (action : Int) (hstate : parser.state = s_sd_value) (he : parser.error = 0)
    (hf : parser.flags.val &&& F_ESCAPED = 0)
    (hx : u.sd_value_result (set_state (enter_token parser) s_sd_field) 34 ≠ rv_advance ∧
      u.sd_value_result (set_state (enter_token parser) s_sd_field) 34 ≠ rv_inc_index ∧
      u.sd_value_result (set_state (enter_token parser) s_sd_field) 34 ≠ rv_rehash) :
    loop_body u settings_zero parser 34 tl action =
      { parser := set_state (enter_token parser) s_sd_field,
        events := [Event.sd_value (on_data_payload parser)],
        rest := tl, action := u.sd_value_result (set_state (enter_token parser) s_sd_field) 34,
        exit_exec := true } := by
  obtain ⟨fl, ts, st, er, hd0, ml, rd, bf⟩ := parser
  simp at hstate he hf
  subst hstate; subst he
  obtain ⟨hx1, hx2, hx3⟩ := hx
  cases ts <;>
    simp_all [loop_body, dispatch, enter_token, set_token_state, sd_value, settings_zero,
      set_state, apply_action, on_data_payload]

theorem enter_token_buffer (parser : syslog_parser_t) :
    (enter_token parser).buffer = parser.buffer := by
  unfold enter_token set_token_state; split <;> rfl

theorem enter_token_msg_head (parser : syslog_parser_t) :
    (enter_token parser).msg_head = parser.msg_head := by
  unfold enter_token set_token_state; split <;> rfl

/-- From the structured-data-field state, with callbacks returning 0 and
`error` 0, the closing `]`, a space and a body line fire field-identified,
head-complete and one body callback, and the parser ends in
`s_msg_complete`. -/
theorem exec_loop_sd_close_line (u : Undef) (parser : syslog_parser_t) (b : List Nat)
    (action : Int) (fuel : Nat)
    (hstate : parser.state = s_sd_field) (he : parser.error = 0)
    (hlf : 10 ∉ b) (hfirst : ∀ c ∈ b.head?, c ≠ 32 ∧ c ≠ 9 ∧ c ≠ 45 ∧ c ≠ 91) :
    ∃ r, exec_loop u settings_zero (fuel + 5) parser (93 :: 32 :: (b ++ [10])) action = some r ∧
      r.events = [Event.sd_field (on_data_payload parser), Event.msg_head parser.msg_head,
        Event.msg b] ∧
      r.parser.error = 0 ∧ r.parser.state = s_msg_complete := by
  have hs : skips parser 93 = false := by simp [skips]
  have hb := loop_body_sd_close u parser (32 :: (b ++ [10])) action hstate he
  obtain ⟨r, h1, h2, h3, h4⟩ := exec_loop_sd_start_line u
    (set_state (enter_token parser) s_sd_start) b rv_advance fuel rfl hlf hfirst
  refine ⟨exec_result.after_iteration [Event.sd_field (on_data_payload parser)]
    ((32 :: (b ++ [10])).length + 1, parser.state) r, ?_, ?_, h3, h4⟩
  · have e : fuel + 5 = ((fuel + 3) + 1) + 1 := by omega
    rw [e, exec_loop_continue _ _ _ _ _ _ _ hs (by rw [hb]), hb]
    simp only []
    rw [exec_loop_skip _ _ _ _ _ _ _ (by simp [skips, set_state, set_token_state]), h1]
    rfl
  · simp [exec_result.after_iteration, h2, set_state, set_token_state, enter_token_msg_head]

/-! ## The claims -/

/-- C1 (code defect): a legacy-framed message begins with `<`.  From the
freshly initialised parser `msg_start` re-presents that byte to `priority`
(state `s_priority`, not `s_priority_start`), which rejects it: for every
slice that begins with `<`, whatever the callbacks and the indeterminate
values are, `uslg_parser_exec` returns 3 (`SLERR_BAD_PRIORITY`), fires no
callback and hands the byte to the state switch twice and no other byte. -/
theorem legacy_message_rejected (u : Undef) (settings : syslog_parser_settings)
    (rest : List Nat) (fuel : Nat) :
    (uslg_parser_exec (fuel + 2) u settings uslg_parser_init (60 :: rest)).map
        (fun r => (r.retval, r.events, r.parser.state, r.dispatched)) =
      some (3, [], s_priority,
        [(rest.length + 1, s_msg_start), (rest.length + 1, s_priority)]) := by
  simp [uslg_parser_exec, exec_loop, loop_body, skips, uslg_parser_init, uslg_parser_reset,
    enter_token, dispatch, msg_start, IS_NUM, set_state, set_token_state, apply_action, rv_rehash,
    rv_advance, rv_inc_index, priority, to_uchar, SLERR_BAD_PRIORITY, exec_result.retval,
    exec_result.after_iteration]

/-- C2 (code defect): a call of `uslg_parser_exec` on the freshly
initialised parser never fires the message-complete callback, whatever the
slice, the callbacks and the indeterminate values are: the only handler
that reaches `s_msg_complete` is `read_message`, whose directive is
`rv_inc_index`, and the driver fires message-complete only under
`rv_advance`.  Two concatenated messages therefore yield no
message-complete callback instead of two. -/
theorem message_complete_never_fired (fuel : Nat) (u : Undef) (settings : syslog_parser_settings)
    (data : List Nat) (r : exec_result)
    (h : uslg_parser_exec fuel u settings uslg_parser_init data = some r) :
    Event.msg_complete ∉ r.events :=
  exec_loop_no_complete u settings fuel uslg_parser_init data u.action0 r
    (fun hc => by simp [uslg_parser_init, uslg_parser_reset] at hc) h

/-- Witness of C2: two octet-counted messages in one slice.  The call
returns 100 (`SLERR_BAD_STATE`) at the first byte of the second message,
having fired the head-complete and the body callback of the first message
only.  (Priority and version read 191: `priority` and `version` accumulate
from the declared length 19, `19 * 10 + 1`.) -/
theorem message_complete_never_fired_witness :
    ∃ r, uslg_parser_exec 60 undef_advance settings_zero uslg_parser_init
        (ascii "19 <1>1 t h a p m - x\n19 <1>1 T H A P M - y\n") = some r ∧
      r.retval = 100 ∧
      r.events = [Event.msg_head { msg_head_zero with
                    pri := 191, version := 191,
                    timestamp := some (ascii "t"), timestamp_len := 1,
                    hostname := some (ascii "h"), hostname_len := 1,
                    appname := some (ascii "a"), appname_len := 1,
                    procid := some (ascii "p"), procid_len := 1,
                    msgid := some (ascii "m"), msgid_len := 1 },
                  Event.msg (ascii "x")] ∧
      Event.msg_complete ∉ r.events :=
  ⟨_, rfl, rfl, rfl,
    message_complete_never_fired 60 undef_advance settings_zero
      (ascii "19 <1>1 t h a p m - x\n19 <1>1 T H A P M - y\n") _ rfl⟩

set_option maxRecDepth 4000 in
/-- C3 (code defect): `flags` is a three-bit field, so `F_COUNT_OCTETS`
(`1 << 3`) is lost when `msg_start` stores it and the octet-counted branch
of `read_message` is never taken.  On the octet-counted message
`19 <1>1 t h a p m - xy` followed by the bytes `ZZ`, whatever the
indeterminate values are, the body callback receives `xyZZ`, two bytes past
the declared 19 octets, no message-complete callback fires, and the call
returns 0 in the message-body state with the flag clear and the declared
length still 19.  (Priority and version read 191: `priority` and `version`
accumulate from the declared length, `19 * 10 + 1`.) -/
theorem octet_count_not_honoured (u : Undef) :
    (uslg_parser_exec 30 u settings_zero uslg_parser_init
        (ascii "19 <1>1 t h a p m - xy" ++ ascii "ZZ")).map
      (fun r => (r.retval, r.events, r.parser.flags.val &&& F_COUNT_OCTETS,
        r.parser.message_length, r.parser.state)) =
    some (0,
      [Event.msg_head { msg_head_zero with
          pri := 191, version := 191,
          timestamp := some (ascii "t"), timestamp_len := 1,
          hostname := some (ascii "h"), hostname_len := 1,
          appname := some (ascii "a"), appname_len := 1,
          procid := some (ascii "p"), procid_len := 1,
          msgid := some (ascii "m"), msgid_len := 1 },
       Event.msg (ascii "xyZZ")],
      0, 19, s_message) := by
  have h0 : ∃ r, uslg_parser_exec 30 undef_advance settings_zero uslg_parser_init
      (ascii "19 <1>1 t h a p m - xy" ++ ascii "ZZ") = some r ∧
      (∀ e ∈ r.dispatched, has_handler e.2 = true ∧ e.2 ≠ s_sd_value) ∧
      (r.retval, r.events, r.parser.flags.val &&& F_COUNT_OCTETS,
        r.parser.message_length, r.parser.state) = (0,
      [Event.msg_head { msg_head_zero with
          pri := 191, version := 191,
          timestamp := some (ascii "t"), timestamp_len := 1,
          hostname := some (ascii "h"), hostname_len := 1,
          appname := some (ascii "a"), appname_len := 1,
          procid := some (ascii "p"), procid_len := 1,
          msgid := some (ascii "m"), msgid_len := 1 },
       Event.msg (ascii "xyZZ")],
      0, 19, s_message) := ⟨_, rfl, by decide, rfl⟩
  obtain ⟨r, h1, h2, h3⟩ := h0
  rw [uslg_parser_exec,
    exec_loop_undef_irrelevant undef_advance u settings_zero _ _ _ _ u.action0 r h1 h2]
  simp only [Option.map_some', h3]

set_option maxRecDepth 4000 in
/-- C4 (code defect): the structured-data handlers never reset the
accumulation buffer after a callback, and the closing bracket fires the
field callback once more.  From structured-data-start with an empty
buffer: up to the `=` of the first parameter, whatever the indeterminate
values are, the callbacks are head-complete, element `exampleSDID@0` and
field `exampleSDID@0iut` (not `iut`); and with `sd_value` yielding
`rv_advance` the whole element of the claim fires one element callback,
three field callbacks and two value callbacks, every payload after the
first carrying all the bytes reported before it. -/
theorem sd_payloads_accumulate :
    (∀ u : Undef,
      (uslg_parser_exec 30 u settings_zero parser_at_sd_start
        (ascii "[exampleSDID@0 iut=")).map (fun r => (r.retval, r.events)) =
      some (0, [Event.msg_head msg_head_zero,
                Event.sd_element (ascii "exampleSDID@0"),
                Event.sd_field (ascii "exampleSDID@0iut")])) ∧
    (uslg_parser_exec 50 undef_advance settings_zero parser_at_sd_start
        (ascii "[exampleSDID@0 iut=\"3\" eventSource=\"App\"]")).map
        (fun r => (r.retval, r.events)) =
      some (0, [Event.msg_head msg_head_zero,
                Event.sd_element (ascii "exampleSDID@0"),
                Event.sd_field (ascii "exampleSDID@0iut"),
                Event.sd_value (ascii "exampleSDID@0iut3"),
                Event.sd_field (ascii "exampleSDID@0iut3eventSource"),
                Event.sd_value (ascii "exampleSDID@0iut3eventSourceApp"),
                Event.sd_field (ascii "exampleSDID@0iut3eventSourceApp")]) := by
  refine ⟨fun u => ?_, rfl⟩
  have h0 : ∃ r, uslg_parser_exec 30 undef_advance settings_zero parser_at_sd_start
      (ascii "[exampleSDID@0 iut=") = some r ∧
      (∀ e ∈ r.dispatched, has_handler e.2 = true ∧ e.2 ≠ s_sd_value) ∧
      (r.retval, r.events) = (0, [Event.msg_head msg_head_zero,
                Event.sd_element (ascii "exampleSDID@0"),
                Event.sd_field (ascii "exampleSDID@0iut")]) := ⟨_, rfl, by decide, rfl⟩
  obtain ⟨r, h1, h2, h3⟩ := h0
  rw [uslg_parser_exec,
    exec_loop_undef_irrelevant undef_advance u settings_zero _ _ _ _ u.action0 r h1 h2]
  simp only [Option.map_some', h3]

/-- C5: from the structured-data-start state with the token state
skipping (and newline-delimited framing, the only framing the three-bit
`flags` field admits), with callbacks returning 0, for every body `b`
without a line-feed that does not begin with space, tab, `-` or `[`, the
slices `- b LF` and `b LF` both make `uslg_parser_exec` return 0 having
fired exactly the head-complete callback followed by one body callback with
payload `b`: no element, field or value callback. -/
theorem absent_structured_data (u : Undef) (parser : syslog_parser_t) (b : List Nat) (fuel : Nat)
    (hstate : parser.state = s_sd_start) (htoken : parser.token_state = ts_before)
    (hlf : 10 ∉ b)
    (hfirst : ∀ c ∈ b.head?, c ≠ 32 ∧ c ≠ 9 ∧ c ≠ 45 ∧ c ≠ 91) :
    ∃ r1 r2,
      uslg_parser_exec (fuel + 4) u settings_zero parser (45 :: 32 :: (b ++ [10])) = some r1 ∧
      uslg_parser_exec (fuel + 4) u settings_zero parser (b ++ [10]) = some r2 ∧
      r1.events = [Event.msg_head parser.msg_head, Event.msg b] ∧
      r2.events = [Event.msg_head parser.msg_head, Event.msg b] ∧
      r1.retval = 0 ∧ r2.retval = 0 := by
  have hfirst2 : ∀ c ∈ b.head?, c ≠ 32 ∧ c ≠ 9 := fun c hc => ⟨(hfirst c hc).1, (hfirst c hc).2.1⟩
  -- the slice with the absence marker
  have hs1 : skips parser 45 = false := by simp [skips]
  have hb1 : loop_body u settings_zero parser 45 (32 :: (b ++ [10])) u.action0 =
      { parser := set_state { enter_token parser with error := 0 } s_message,
        events := [Event.msg_head parser.msg_head],
        rest := 32 :: (b ++ [10]), action := rv_advance, exit_exec := false } := by
    obtain ⟨fl, ts, st, er, hd, ml, rd, bf⟩ := parser
    simp at hstate htoken
    subst hstate; subst htoken
    simp [loop_body, dispatch, enter_token, set_token_state, sd_start, settings_zero, to_uchar,
      set_state, apply_action, rv_advance]
  have hs2 : skips (set_state { enter_token parser with error := 0 } s_message) 32 = true := by
    simp [skips, set_state, set_token_state]
  obtain ⟨ra, hra, hea, hva, _⟩ := exec_loop_line u
    (set_state { enter_token parser with error := 0 } s_message) b rv_advance fuel rfl hlf
    hfirst2
  -- the slice without it
  obtain ⟨c, tl, hd⟩ : ∃ c tl, c :: tl = b ++ [10] := by
    cases b with
    | nil => exact ⟨10, [], rfl⟩
    | cons c tl => exact ⟨c, tl ++ [10], by simp⟩
  have hc : c ≠ 32 ∧ c ≠ 9 ∧ c ≠ 45 ∧ c ≠ 91 := by
    cases b with
    | nil => simp at hd; omega
    | cons d tl2 =>
      simp at hd
      have := hfirst d (by simp)
      rw [hd.1]; exact this
  have hs3 : skips parser c = false := by simp [skips, hc.1, hc.2.1]
  have hb3 : loop_body u settings_zero parser c tl u.action0 =
      { parser := set_state { enter_token parser with error := 0 } s_message,
        events := [Event.msg_head parser.msg_head],
        rest := c :: tl, action := rv_rehash, exit_exec := false } := by
    obtain ⟨fl, ts, st, er, hd, ml, rd, bf⟩ := parser
    simp at hstate htoken
    subst hstate; subst htoken
    simp [loop_body, dispatch, enter_token, set_token_state, sd_start, settings_zero, to_uchar,
      set_state, apply_action, rv_advance, rv_rehash, rv_inc_index, hc.2.2.1, hc.2.2.2]
  obtain ⟨rb, hrb, heb, hvb, _⟩ := exec_loop_line u
    (set_state { enter_token parser with error := 0 } s_message) b rv_rehash (fuel + 1) rfl hlf
    hfirst2
  refine ⟨exec_result.after_iteration [Event.msg_head parser.msg_head]
      ((32 :: (b ++ [10])).length + 1, parser.state) ra,
    exec_result.after_iteration [Event.msg_head parser.msg_head] (tl.length + 1, parser.state) rb,
    ?_, ?_, ?_, ?_, ?_, ?_⟩
  · unfold uslg_parser_exec
    rw [exec_loop_continue _ _ _ _ _ _ _ hs1 (by rw [hb1]), hb1]
    simp only []
    rw [exec_loop_skip _ _ _ _ _ _ _ hs2, hra]
    rfl
  · unfold uslg_parser_exec
    rw [← hd, exec_loop_continue _ _ _ _ _ _ _ hs3 (by rw [hb3]), hb3]
    simp only []
    rw [hd, hrb]
    rfl
  · simp [exec_result.after_iteration, hea]
  · simp [exec_result.after_iteration, heb]
  · simp [exec_result.retval, exec_result.after_iteration, hva]
  · simp [exec_result.retval, exec_result.after_iteration, hvb]

/-- Witness of C5: the body `body` after the committed msg-id of a freshly
initialised parser. -/
theorem absent_structured_data_witness :
    ∃ r1 r2,
      uslg_parser_exec (0 + 4) undef_advance settings_zero
        { uslg_parser_init with state := s_sd_start } (45 :: 32 :: (ascii "body" ++ [10])) =
          some r1 ∧
      uslg_parser_exec (0 + 4) undef_advance settings_zero
        { uslg_parser_init with state := s_sd_start } (ascii "body" ++ [10]) = some r2 ∧
      r1.events = [Event.msg_head ({ uslg_parser_init with state := s_sd_start } :
        syslog_parser_t).msg_head, Event.msg (ascii "body")] ∧
      r2.events = [Event.msg_head ({ uslg_parser_init with state := s_sd_start } :
        syslog_parser_t).msg_head, Event.msg (ascii "body")] ∧
      r1.retval = 0 ∧ r2.retval = 0 :=
  absent_structured_data undef_advance { uslg_parser_init with state := s_sd_start }
    (ascii "body") 0 rfl rfl (by decide) (by decide)

set_option maxRecDepth 4000 in
/-- C6 (code defect): a call that the driver leaves early returns 0 with
the rest of its slice unread, so feeding the same bytes in two calls reads
further than feeding them in one.  (1) The return value of a data callback
is used as the driver's directive: when the element callback returns
`rv_error`, the slice `[id ] body LF` fed from structured-data-start in one
call ends with `error` 0 after two callbacks, in the structured-data-field
state; fed as `[id ` and then `] body LF` the second call reads on, fires
three more callbacks and ends in `s_msg_complete`.  No byte reaches
`sd_value`, and this holds for every value of the indeterminate locals.
(2) With callbacks returning 0: `sd_value` has no `return`; whenever what
it hands back after a closing quote is none of the three directives, the
call leaves the loop at that quote with `error` 0, and the slice
`" ] SP b LF` fed in one call fires the value callback only, while fed as
`"` and then `] SP b LF` it fires field-identified, head-complete and the
body callback as well. -/
theorem chunked_feed_diverges :
    (∀ u : Undef, ∃ r r1 r2,
      uslg_parser_exec 20 u settings_element_fails parser_at_sd_start
        (ascii "[id " ++ ascii "] body\n") = some r ∧
      uslg_parser_exec 20 u settings_element_fails parser_at_sd_start (ascii "[id ") = some r1 ∧
      uslg_parser_exec 20 u settings_element_fails r1.parser (ascii "] body\n") = some r2 ∧
      r.retval = 0 ∧ r2.retval = 0 ∧
      r.events = [Event.msg_head msg_head_zero, Event.sd_element (ascii "id")] ∧
      r1.events ++ r2.events =
        [Event.msg_head msg_head_zero, Event.sd_element (ascii "id"),
         Event.sd_field (ascii "id"), Event.msg_head msg_head_zero, Event.msg (ascii "body")] ∧
      r.parser.state = s_sd_field ∧ r2.parser.state = s_msg_complete ∧
      merge_chunks (r1.events ++ r2.events) ≠ merge_chunks r.events ∧
      ¬ same_parse_state r2.parser r.parser) ∧
    (∀ (u : Undef) (parser : syslog_parser_t) (b : List Nat) (fuel : Nat),
      parser.state = s_sd_value → parser.error = 0 → parser.flags.val &&& F_ESCAPED = 0 →
      (u.sd_value_result (set_state (enter_token parser) s_sd_field) 34 ≠ rv_advance ∧
        u.sd_value_result (set_state (enter_token parser) s_sd_field) 34 ≠ rv_inc_index ∧
        u.sd_value_result (set_state (enter_token parser) s_sd_field) 34 ≠ rv_rehash) →
      10 ∉ b → (∀ c ∈ b.head?, c ≠ 32 ∧ c ≠ 9 ∧ c ≠ 45 ∧ c ≠ 91) →
      ∃ r r1 r2,
        uslg_parser_exec (fuel + 5) u settings_zero parser (34 :: 93 :: 32 :: (b ++ [10])) =
          some r ∧
        uslg_parser_exec (fuel + 5) u settings_zero parser [34] = some r1 ∧
        uslg_parser_exec (fuel + 5) u settings_zero r1.parser (93 :: 32 :: (b ++ [10])) =
          some r2 ∧
        r.retval = 0 ∧ r2.retval = 0 ∧
        r.events = [Event.sd_value (on_data_payload parser)] ∧
        r1.events ++ r2.events =
          [Event.sd_value (on_data_payload parser), Event.sd_field (on_data_payload parser),
           Event.msg_head parser.msg_head, Event.msg b] ∧
        r.parser.state = s_sd_field ∧ r2.parser.state = s_msg_complete ∧
        ¬ same_parse_state r2.parser r.parser) := by
  constructor
  · intro u
    obtain ⟨r, hr, k1, k2, k3⟩ := exec_exists_for_all_undef
      (fun r => r.retval = 0 ∧
        r.events = [Event.msg_head msg_head_zero, Event.sd_element (ascii "id")] ∧
        r.parser.state = s_sd_field)
      20 settings_element_fails parser_at_sd_start (ascii "[id " ++ ascii "] body\n")
      (by exact ⟨_, rfl, by decide, rfl, rfl, rfl⟩) u
    obtain ⟨r1, r2, h1, h2, k4, k5, k6⟩ := exec_twice_for_all_undef id
      (fun r1 r2 => r2.retval = 0 ∧
        r1.events ++ r2.events =
          [Event.msg_head msg_head_zero, Event.sd_element (ascii "id"),
           Event.sd_field (ascii "id"), Event.msg_head msg_head_zero, Event.msg (ascii "body")] ∧
        r2.parser.state = s_msg_complete)
      20 20 settings_element_fails parser_at_sd_start (ascii "[id ") (ascii "] body\n")
      (by exact ⟨_, _, rfl, by decide, rfl, by decide, rfl, rfl, rfl⟩) u
    refine ⟨r, r1, r2, hr, h1, h2, k1, k4, k2, k5, k3, k6, ?_, ?_⟩
    · rw [k5, k2]; decide
    · intro h
      have := h.1
      rw [k6, k3] at this
      exact absurd this (by decide)
  · intro u parser b fuel hstate he hf hx hlf hfirst
    have hs : skips parser 34 = false := by simp [skips]
    have hb1 := loop_body_sd_value_close u parser (93 :: 32 :: (b ++ [10])) u.action0 hstate he
      hf hx
    have hb2 := loop_body_sd_value_close u parser [] u.action0 hstate he hf hx
    have hq : (set_state (enter_token parser) s_sd_field).error = 0 := by
      simpa [set_state, set_token_state, enter_token_error] using he
    obtain ⟨r2, h2, e2, v2, s2⟩ := exec_loop_sd_close_line u
      (set_state (enter_token parser) s_sd_field) b u.action0 fuel rfl hq hlf hfirst
    have ep : on_data_payload (set_state (enter_token parser) s_sd_field) =
        on_data_payload parser := by
      simp [on_data_payload, set_state, set_token_state, enter_token_buffer]
    have eh : (set_state (enter_token parser) s_sd_field).msg_head = parser.msg_head := by
      simp [set_state, set_token_state, enter_token_msg_head]
    rw [ep, eh] at e2
    refine ⟨_, _, r2,
      exec_loop_exit u settings_zero (fuel + 4) parser 34 _ u.action0 hs (by rw [hb1]),
      exec_loop_exit u settings_zero (fuel + 4) parser 34 _ u.action0 hs (by rw [hb2]),
      ?_, ?_, ?_, ?_, ?_, ?_, ?_, ?_⟩
    · rw [hb2]; exact h2
    · simp [exec_result.retval, hb1, hq]
    · simp [exec_result.retval, v2]
    · simp [hb1]
    · simp [hb2, e2]
    · simp [hb1, set_state, set_token_state]
    · exact s2
    · intro h
      have := h.1
      rw [s2] at this
      simp [hb1, set_state, set_token_state] at this

/-- Witness of C6: part (1) for the indeterminate values taken as
`rv_advance`. -/
theorem chunked_feed_diverges_witness :
    ∃ r r1 r2,
      uslg_parser_exec 20 undef_advance settings_element_fails parser_at_sd_start
        (ascii "[id " ++ ascii "] body\n") = some r ∧
      uslg_parser_exec 20 undef_advance settings_element_fails parser_at_sd_start
        (ascii "[id ") = some r1 ∧
      uslg_parser_exec 20 undef_advance settings_element_fails r1.parser
        (ascii "] body\n") = some r2 ∧
      r.retval = 0 ∧ r2.retval = 0 ∧
      r.events = [Event.msg_head msg_head_zero, Event.sd_element (ascii "id")] ∧
      r1.events ++ r2.events =
        [Event.msg_head msg_head_zero, Event.sd_element (ascii "id"),
         Event.sd_field (ascii "id"), Event.msg_head msg_head_zero, Event.msg (ascii "body")] ∧
      r.parser.state = s_sd_field ∧ r2.parser.state = s_msg_complete ∧
      merge_chunks (r1.events ++ r2.events) ≠ merge_chunks r.events ∧
      ¬ same_parse_state r2.parser r.parser :=
  chunked_feed_diverges.1 undef_advance

/-- C7: for every parser state and input slice, whatever the callbacks and
the indeterminate values are: when the loop of `uslg_parser_exec`, after
any number `n` of iterations, stands at a byte that it hands to the handler
of the current state and that handler leaves `error` non-zero, the call
returns that non-zero error, the parser is as the handler left it, the
callbacks fired are those fired before followed by the handler's own, and
that byte is the last one handed to the state switch. -/
theorem error_stops_the_driver (u : Undef) (settings : syslog_parser_settings)
    (parser : syslog_parser_t) (data : List Nat) (n fuel : Nat)
    (parser1 : syslog_parser_t) (next_byte : Nat) (tl : List Nat) (action1 : Int)
    (evs : List Event) (ds : List (Nat × syslog_state))
    (hreach : loop_steps u settings n parser data u.action0 =
      some { parser := parser1, rest := next_byte :: tl, action := action1, events := evs,
             dispatched := ds })
    (hskip : skips parser1 next_byte = false)
    (hh : has_handler parser1.state = true)
    (herr : (dispatch u settings (enter_token parser1) next_byte (next_byte :: tl)
      action1).parser.error ≠ 0) :
    ∃ r, uslg_parser_exec (n + (fuel + 1)) u settings parser data = some r ∧
      r.parser =
        (dispatch u settings (enter_token parser1) next_byte (next_byte :: tl) action1).parser ∧
      r.events = evs ++
        (dispatch u settings (enter_token parser1) next_byte (next_byte :: tl) action1).events ∧
      r.dispatched = ds ++ [(tl.length + 1, parser1.state)] ∧
      r.retval =
        (dispatch u settings (enter_token parser1) next_byte (next_byte :: tl)
          action1).parser.error ∧
      r.retval ≠ 0 := by
  obtain ⟨r, h1, h2, h3, h4, h5, h6⟩ :=
    exec_loop_error_exit u settings fuel parser1 next_byte tl action1 hskip hh herr
  refine ⟨{ parser := r.parser, events := evs ++ r.events, dispatched := ds ++ r.dispatched },
    ?_, h2, ?_, ?_, h5, h6⟩
  · rw [uslg_parser_exec, exec_loop_after_steps u settings (fuel + 1) n parser data u.action0 _
      hreach]
    simp only [h1, Option.map_some']
  · simp only [h3]
  · simp only [h4]

/-- Witness of C7: the freshly initialised parser is fed `12 x<`.  After
four iterations the loop stands at `x` in state `s_priority_start`, whose
handler raises error 3: the call returns 3, no callback has fired, and the
`<` behind `x` is not handed to any handler. -/
theorem error_stops_the_driver_witness :
    ∃ r, uslg_parser_exec (4 + (0 + 1)) undef_advance settings_zero uslg_parser_init
        (ascii "12 x<") = some r ∧
      r.retval = 3 ∧ r.events = [] ∧
      r.dispatched = [(5, s_msg_start), (5, s_octet_count), (4, s_octet_count),
        (3, s_octet_count), (2, s_priority_start)] := by
  obtain ⟨r, h1, _, h3, h4, h5, _⟩ :=
    error_stops_the_driver undef_advance settings_zero uslg_parser_init (ascii "12 x<") 4 0
      { uslg_parser_init with state := s_priority_start, message_length := 12 } 120 [60]
      rv_advance []
      [(5, s_msg_start), (5, s_octet_count), (4, s_octet_count), (3, s_octet_count)]
      rfl rfl rfl (by decide)
  exact ⟨r, h1, h5.trans rfl, h3.trans rfl, h4.trans rfl⟩

/-- C9 (code defect): in every head-token state and in the structured-data
element state, a run of token bytes longer than the capacity of the
accumulation buffer does not stop `uslg_parser_exec` with the overflow
error: the handlers drop the return value of `store_byte`, so the call
consumes the whole run, fires nothing, stays in its state and returns 0. -/
theorem overflow_not_reported (u : Undef) (settings : syslog_parser_settings)
    (parser : syslog_parser_t) (token : List Nat)
    (hstate : accumulates_token parser.state = true)
    (herror : parser.error = 0)
    (htoken : ∀ c ∈ token, IS_WS c = false)
    (_hlong : parser.buffer.size < token.length) :
    ∃ r, uslg_parser_exec (token.length + 1) u settings parser token = some r ∧
      r.retval = 0 ∧ r.events = [] ∧ r.parser.state = parser.state := by
  obtain ⟨r, hr, he, hv, hs⟩ := exec_loop_accumulate u settings token parser u.action0 hstate
    herror htoken
  exact ⟨r, hr, by simp [exec_result.retval, he], hv, hs⟩

/-- Witness of C9: 65537 bytes `a` in the timestamp state of the freshly
initialised parser, whose buffer holds 65536 bytes. -/
theorem overflow_not_reported_witness :
    ∃ r, uslg_parser_exec ((List.replicate 65537 97).length + 1) undef_advance settings_zero
        { uslg_parser_init with state := s_timestamp } (List.replicate 65537 97) = some r ∧
      r.retval = 0 ∧ r.events = [] ∧
      r.parser.state = ({ uslg_parser_init with state := s_timestamp } : syslog_parser_t).state :=
  overflow_not_reported undef_advance settings_zero
    { uslg_parser_init with state := s_timestamp } (List.replicate 65537 97) rfl rfl
    (fun c hc => by rw [List.eq_of_mem_replicate hc]; rfl)
    (by rw [List.length_replicate]; exact Nat.lt_succ_self 65536)

/-- C10: the write cursor of the accumulation buffer never exceeds its
capacity.  `position ≤ size` holds after `new_pbuffer`, is kept by
`store_byte_in_pbuffer`, `copy_into_pbuffer` and `reset_pbuffer`, holds in
the freshly initialised parser, is kept by every call of
`uslg_parser_exec` and so holds after every sequence of calls on that
parser; and a store or a copy that fails with the overflow code leaves the
buffer, cursor and contents, as it was. -/
theorem cursor_within_capacity :
    (∀ size : Nat, (new_pbuffer size).position ≤ (new_pbuffer size).size) ∧
    (∀ (byte : Nat) (dest : pbuffer), dest.position ≤ dest.size →
      (store_byte_in_pbuffer byte dest).2.position ≤ (store_byte_in_pbuffer byte dest).2.size) ∧
    (∀ (source : List Nat) (dest : pbuffer) (length : Nat), dest.position ≤ dest.size →
      (copy_into_pbuffer source dest length).2.position ≤
        (copy_into_pbuffer source dest length).2.size) ∧
    (∀ buffer : pbuffer, (reset_pbuffer buffer).position ≤ (reset_pbuffer buffer).size) ∧
    uslg_parser_init.buffer.position ≤ uslg_parser_init.buffer.size ∧
    (∀ (fuel : Nat) (u : Undef) (settings : syslog_parser_settings) (parser : syslog_parser_t)
      (data : List Nat) (r : exec_result),
      parser.buffer.position ≤ parser.buffer.size →
      uslg_parser_exec fuel u settings parser data = some r →
      r.parser.buffer.position ≤ r.parser.buffer.size) ∧
    (∀ (fuel : Nat) (u : Undef) (settings : syslog_parser_settings) (slices : List (List Nat))
      (p : syslog_parser_t),
      exec_calls fuel u settings uslg_parser_init slices = some p →
      p.buffer.position ≤ p.buffer.size) ∧
    (∀ (byte : Nat) (dest : pbuffer),
      (store_byte_in_pbuffer byte dest).1 = SLERR_BUFFER_OVERFLOW →
      (store_byte_in_pbuffer byte dest).2 = dest) ∧
    (∀ (source : List Nat) (dest : pbuffer) (length : Nat),
      (copy_into_pbuffer source dest length).1 = SLERR_BUFFER_OVERFLOW →
      (copy_into_pbuffer source dest length).2 = dest) := by
  refine ⟨?_, ?_, ?_, ?_, ?_, ?_, ?_, ?_, ?_⟩
  · intro size; simp [new_pbuffer]
  · intro byte dest h; exact store_byte_in_pbuffer_ok byte dest h
  · intro source dest length h; exact copy_into_pbuffer_ok source dest length h
  · intro buffer; simp [reset_pbuffer]
  · simp [uslg_parser_init, uslg_parser_reset, new_pbuffer]
  · intro fuel u settings parser data r h hr
    exact exec_loop_invariant u settings (fun p => pbuffer_ok p.buffer)
      (fun p c tl a hp => loop_body_buffer_ok u settings p c tl a hp) fuel parser data u.action0 r
      h hr
  · intro fuel u settings slices p hp
    exact exec_calls_buffer_ok fuel u settings slices uslg_parser_init p
      (by simp [pbuffer_ok, uslg_parser_init, uslg_parser_reset, new_pbuffer]) hp
  · intro byte dest h
    unfold store_byte_in_pbuffer at h ⊢
    split
    · rename_i hlt; simp [hlt, SLERR_BUFFER_OVERFLOW] at h
    · rfl
  · intro source dest length h
    unfold copy_into_pbuffer at h ⊢
    split
    · rename_i hlt; simp [hlt, SLERR_BUFFER_OVERFLOW] at h
    · rfl

/-- Witness of C10: a buffer of capacity 2 whose cursor is at 1 refuses the
next byte and stays as it was, and the parser that has read `12 <` from the
freshly initialised state has its cursor within the capacity. -/
theorem cursor_within_capacity_witness :
    (store_byte_in_pbuffer 97 { bytes := [98, 0], position := 1, size := 2 }).2 =
        { bytes := [98, 0], position := 1, size := 2 } ∧
    (store_byte_in_pbuffer 97 { bytes := [0, 0], position := 0, size := 2 }).2.position ≤
        (store_byte_in_pbuffer 97 { bytes := [0, 0], position := 0, size := 2 }).2.size ∧
    ∀ r, uslg_parser_exec 8 undef_advance settings_zero uslg_parser_init (ascii "12 <") = some r →
      r.parser.buffer.position ≤ r.parser.buffer.size :=
  ⟨cursor_within_capacity.2.2.2.2.2.2.2.1 97 { bytes := [98, 0], position := 1, size := 2 } rfl,
   cursor_within_capacity.2.1 97 { bytes := [0, 0], position := 0, size := 2 } (by decide),
   fun r hr => cursor_within_capacity.2.2.2.2.2.1 8 undef_advance settings_zero uslg_parser_init
     (ascii "12 <") r cursor_within_capacity.2.2.2.2.1 hr⟩

set_option maxRecDepth 4000 in
/-- C11 (code defect): `uslg_parser_reset` zeroes the flags, the declared
length, the consumed counter and `error` and sets the state to
message-start and the token state to skipping, but it touches neither the
head model nor the buffer: for every parser both are after the reset what
they were before.  What it leaves behind corrupts the next message, for
every value of the indeterminate locals and callbacks returning 0.  After
the message `5 <1>1 t h a p m [id ] body LF` and a reset the cursor is still
2 and the head still holds timestamp `t` and priority 51, and the next
message `5 <1>1 T h a p m - x LF` gets the timestamp `idT`.  After the
message `0 <9>1 t h a p m - x LF` and a reset the message
`0 <1>1 t h a p m - x LF`, which the freshly initialised parser accepts, is
rejected with `SLERR_BAD_PRIORITY` because the old priority 9 is still in
the head. -/
theorem reset_leaves_head_and_buffer :
    (∀ parser : syslog_parser_t,
      (uslg_parser_reset parser).flags = 0 ∧
      (uslg_parser_reset parser).message_length = 0 ∧
      (uslg_parser_reset parser).read = 0 ∧
      (uslg_parser_reset parser).error = 0 ∧
      (uslg_parser_reset parser).state = s_msg_start ∧
      (uslg_parser_reset parser).token_state = ts_before ∧
      (uslg_parser_reset parser).msg_head = parser.msg_head ∧
      (uslg_parser_reset parser).buffer = parser.buffer) ∧
    (∀ u : Undef, ∃ r1 r2,
      uslg_parser_exec 40 u settings_zero uslg_parser_init
        (ascii "5 <1>1 t h a p m [id ] body\n") = some r1 ∧
      uslg_parser_exec 40 u settings_zero (uslg_parser_reset r1.parser)
        (ascii "5 <1>1 T h a p m - x\n") = some r2 ∧
      r1.retval = 0 ∧
      (uslg_parser_reset r1.parser).buffer.position = 2 ∧
      (uslg_parser_reset r1.parser).msg_head.timestamp = some (ascii "t") ∧
      (uslg_parser_reset r1.parser).msg_head.pri = 51 ∧
      r2.retval = 0 ∧
      r2.parser.msg_head.timestamp = some (ascii "idT") ∧
      r2.parser.msg_head.timestamp_len = 3) ∧
    (∀ u : Undef,
      (∃ r, uslg_parser_exec 40 u settings_zero uslg_parser_init
          (ascii "0 <1>1 t h a p m - x\n") = some r ∧
        r.retval = 0 ∧ r.parser.msg_head.pri = 1) ∧
      ∃ r1 r2,
        uslg_parser_exec 40 u settings_zero uslg_parser_init
          (ascii "0 <9>1 t h a p m - x\n") = some r1 ∧
        uslg_parser_exec 40 u settings_zero (uslg_parser_reset r1.parser)
          (ascii "0 <1>1 t h a p m - x\n") = some r2 ∧
        r1.retval = 0 ∧ r2.retval = 3 ∧ r2.parser.msg_head.pri = 9 ∧
        r2.events = []) := by
  refine ⟨fun parser => ⟨rfl, rfl, rfl, rfl, rfl, rfl, rfl, rfl⟩, ?_, ?_⟩
  · intro u
    exact exec_twice_for_all_undef uslg_parser_reset
      (fun r1 r2 => r1.retval = 0 ∧
        (uslg_parser_reset r1.parser).buffer.position = 2 ∧
        (uslg_parser_reset r1.parser).msg_head.timestamp = some (ascii "t") ∧
        (uslg_parser_reset r1.parser).msg_head.pri = 51 ∧
        r2.retval = 0 ∧
        r2.parser.msg_head.timestamp = some (ascii "idT") ∧
        r2.parser.msg_head.timestamp_len = 3)
      40 40 settings_zero uslg_parser_init (ascii "5 <1>1 t h a p m [id ] body\n")
      (ascii "5 <1>1 T h a p m - x\n")
      (by exact ⟨_, _, rfl, by decide, rfl, by decide, rfl, rfl, rfl, rfl, rfl, rfl, rfl⟩) u
  · intro u
    constructor
    · exact exec_exists_for_all_undef (fun r => r.retval = 0 ∧ r.parser.msg_head.pri = 1)
        40 settings_zero uslg_parser_init (ascii "0 <1>1 t h a p m - x\n")
        (by exact ⟨_, rfl, by decide, rfl, rfl⟩) u
    · exact exec_twice_for_all_undef uslg_parser_reset
        (fun r1 r2 => r1.retval = 0 ∧ r2.retval = 3 ∧ r2.parser.msg_head.pri = 9 ∧ r2.events = [])
        40 40 settings_zero uslg_parser_init (ascii "0 <9>1 t h a p m - x\n")
        (ascii "0 <1>1 t h a p m - x\n")
        (by exact ⟨_, _, rfl, by decide, rfl, by decide, rfl, rfl, rfl, rfl⟩) u

/-- C12: from a parser in the timestamp state with `error` 0 and an empty
buffer (cursor 0, an array of `size` bytes, `size` at most 2^31 so that a
token length fits the local `int len` of `set_str_field`), five non-empty
tokens without whitespace bytes, each shorter than the buffer capacity, fed as
`t SP h SP a SP p SP m SP`, leave the head model with the five tokens in
timestamp, hostname, app-name, proc-id and msg-id and their lengths
recorded, the cursor at 0, the return value 0 and the state
structured-data-start; no callback fires.  This holds for every token
state the parser starts in, for all callbacks and all indeterminate
values. -/
theorem head_tokens_committed (u : Undef) (settings : syslog_parser_settings)
    (parser : syslog_parser_t) (t h a p m : List Nat)
    (hstate : parser.state = s_timestamp) (herr : parser.error = 0)
    (hpos : parser.buffer.position = 0)
    (hlen : parser.buffer.bytes.length = parser.buffer.size)
    (hsz : parser.buffer.size ≤ 2147483648)
    (ht : t ≠ [] ∧ (∀ x ∈ t, IS_WS x = false) ∧ t.length < parser.buffer.size)
    (hh : h ≠ [] ∧ (∀ x ∈ h, IS_WS x = false) ∧ h.length < parser.buffer.size)
    (ha : a ≠ [] ∧ (∀ x ∈ a, IS_WS x = false) ∧ a.length < parser.buffer.size)
    (hp : p ≠ [] ∧ (∀ x ∈ p, IS_WS x = false) ∧ p.length < parser.buffer.size)
    (hm : m ≠ [] ∧ (∀ x ∈ m, IS_WS x = false) ∧ m.length < parser.buffer.size) :
    ∃ r, uslg_parser_exec (t.length + h.length + a.length + p.length + m.length + 6) u settings
        parser (t ++ 32 :: (h ++ 32 :: (a ++ 32 :: (p ++ 32 :: (m ++ [32]))))) = some r ∧
      r.parser.msg_head.timestamp = some t ∧ r.parser.msg_head.timestamp_len = t.length ∧
      r.parser.msg_head.hostname = some h ∧ r.parser.msg_head.hostname_len = h.length ∧
      r.parser.msg_head.appname = some a ∧ r.parser.msg_head.appname_len = a.length ∧
      r.parser.msg_head.procid = some p ∧ r.parser.msg_head.procid_len = p.length ∧
      r.parser.msg_head.msgid = some m ∧ r.parser.msg_head.msgid_len = m.length ∧
      r.parser.msg_head.pri = parser.msg_head.pri ∧
      r.parser.msg_head.version = parser.msg_head.version ∧
      r.parser.buffer.position = 0 ∧ r.retval = 0 ∧ r.parser.state = s_sd_start ∧
      r.events = [] := by
  have hsz : parser.buffer.size ≤ U64 := Nat.le_trans hsz (by decide)
  have lt := to_size_to_int t.length (by omega)
  have lh := to_size_to_int h.length (by omega)
  have la := to_size_to_int a.length (by omega)
  have lp := to_size_to_int p.length (by omega)
  have lm := to_size_to_int m.length (by omega)
  obtain ⟨q1, D1, s1, a1, b1, c1, d1, e1, f1⟩ := loop_steps_token_ready u settings s_hostname
    (h ++ 32 :: (a ++ 32 :: (p ++ 32 :: (m ++ [32])))) t parser u.action0
    (by rw [hstate]; rfl) herr ht.1 ht.2.1 hpos ht.2.2 hsz hlen
  obtain ⟨q2, D2, s2, a2, b2, c2, d2, e2, f2⟩ := loop_steps_token_ready u settings s_appname
    (a ++ 32 :: (p ++ 32 :: (m ++ [32]))) h q1 rv_advance
    (by rw [a1]; rfl) b1 hh.1 hh.2.1 c1 (by rw [d1]; exact hh.2.2) (by rw [d1]; exact hsz) e1
  obtain ⟨q3, D3, s3, a3, b3, c3, d3, e3, f3⟩ := loop_steps_token_ready u settings s_procid
    (p ++ 32 :: (m ++ [32])) a q2 rv_advance
    (by rw [a2]; rfl) b2 ha.1 ha.2.1 c2 (by rw [d2, d1]; exact ha.2.2)
    (by rw [d2, d1]; exact hsz) e2
  obtain ⟨q4, D4, s4, a4, b4, c4, d4, e4, f4⟩ := loop_steps_token_ready u settings s_msgid
    (m ++ [32]) p q3 rv_advance
    (by rw [a3]; rfl) b3 hp.1 hp.2.1 c3 (by rw [d3, d2, d1]; exact hp.2.2)
    (by rw [d3, d2, d1]; exact hsz) e3
  obtain ⟨q5, D5, s5, a5, b5, c5, d5, e5, f5⟩ := loop_steps_token_ready u settings s_sd_start
    [] m q4 rv_advance
    (by rw [a4]; rfl) b4 hm.1 hm.2.1 c4 (by rw [d4, d3, d2, d1]; exact hm.2.2)
    (by rw [d4, d3, d2, d1]; exact hsz) e4
  have efuel : t.length + h.length + a.length + p.length + m.length + 6 =
      (t.length + 1) + ((h.length + 1) + ((a.length + 1) + ((p.length + 1) +
        ((m.length + 1) + 1)))) := by omega
  have hrun : uslg_parser_exec (t.length + h.length + a.length + p.length + m.length + 6) u
      settings parser (t ++ 32 :: (h ++ 32 :: (a ++ 32 :: (p ++ 32 :: (m ++ [32]))))) =
      some { parser := q5, events := [], dispatched := D1 ++ (D2 ++ (D3 ++ (D4 ++ D5))) } := by
    rw [uslg_parser_exec, efuel, exec_loop_after_steps u settings _ _ _ _ _ _ s1]
    simp only []
    rw [exec_loop_after_steps u settings _ _ _ _ _ _ s2]
    simp only []
    rw [exec_loop_after_steps u settings _ _ _ _ _ _ s3]
    simp only []
    rw [exec_loop_after_steps u settings _ _ _ _ _ _ s4]
    simp only []
    rw [exec_loop_after_steps u settings _ _ _ _ _ _ s5]
    simp [exec_loop]
  refine ⟨_, hrun, ?_⟩
  simp only [exec_result.retval, b5, a5, c5]
  rw [f5, f4, f3, f2, f1]
  simp [set_str_field, reset_buffer, copy_parser_buffer, copy_pbuffer, a4, a3, a2, a1, hstate,
    lt, lh, la, lp, lm]

/-- Witness of C12: the tokens `Oct11`, `host`, `app`, `42` and `ID7` on
the freshly initialised parser put in the timestamp state. -/
theorem head_tokens_committed_witness :
    ∃ r, uslg_parser_exec
        ((ascii "Oct11").length + (ascii "host").length + (ascii "app").length +
          (ascii "42").length + (ascii "ID7").length + 6) undef_advance settings_zero
        parser_at_timestamp
        (ascii "Oct11" ++ 32 :: (ascii "host" ++ 32 :: (ascii "app" ++ 32 ::
          (ascii "42" ++ 32 :: (ascii "ID7" ++ [32]))))) = some r ∧
      r.parser.msg_head.timestamp = some (ascii "Oct11") ∧
      r.parser.msg_head.timestamp_len = (ascii "Oct11").length ∧
      r.parser.msg_head.hostname = some (ascii "host") ∧
      r.parser.msg_head.hostname_len = (ascii "host").length ∧
      r.parser.msg_head.appname = some (ascii "app") ∧
      r.parser.msg_head.appname_len = (ascii "app").length ∧
      r.parser.msg_head.procid = some (ascii "42") ∧
      r.parser.msg_head.procid_len = (ascii "42").length ∧
      r.parser.msg_head.msgid = some (ascii "ID7") ∧
      r.parser.msg_head.msgid_len = (ascii "ID7").length ∧
      r.parser.msg_head.pri = parser_at_timestamp.msg_head.pri ∧
      r.parser.msg_head.version = parser_at_timestamp.msg_head.version ∧
      r.parser.buffer.position = 0 ∧ r.retval = 0 ∧ r.parser.state = s_sd_start ∧
      r.events = [] :=
  head_tokens_committed undef_advance settings_zero parser_at_timestamp
    (ascii "Oct11") (ascii "host") (ascii "app") (ascii "42") (ascii "ID7")
    rfl rfl rfl (List.length_replicate _ _) (by decide)
    ⟨by decide, by decide, by decide⟩ ⟨by decide, by decide, by decide⟩
    ⟨by decide, by decide, by decide⟩ ⟨by decide, by decide, by decide⟩
    ⟨by decide, by decide, by decide⟩

/-- C13 (code defect): `priority` accumulates each digit onto
`message_length`, not onto the priority read so far, in a `uint8_t`.  From
the priority-start state, whatever the indeterminate values are: `<13>`
leaves priority 3 (not 13), `<10>` and `<165>` stop with error 3
(`SLERR_BAD_PRIORITY`) at their second and third digit, and behind the
octet-count prefix `19 ` the token `<13>` leaves priority 193. -/
theorem priority_not_decimal (u : Undef) :
    (uslg_parser_exec 10 u settings_zero parser_at_priority_start (ascii "<13>")).map
      (fun r => (r.retval, r.parser.msg_head.pri, r.parser.state)) = some (0, 3, s_version) ∧
    (uslg_parser_exec 10 u settings_zero parser_at_priority_start (ascii "<10>")).map
      (fun r => (r.retval, r.parser.msg_head.pri, r.parser.state)) = some (3, 1, s_priority) ∧
    (uslg_parser_exec 10 u settings_zero parser_at_priority_start (ascii "<165>")).map
      (fun r => (r.retval, r.parser.msg_head.pri, r.parser.state)) = some (3, 6, s_priority) ∧
    (uslg_parser_exec 20 u settings_zero uslg_parser_init (ascii "19 <13>")).map
      (fun r => (r.retval, r.parser.msg_head.pri, r.parser.state)) = some (0, 193, s_version) := by
  refine ⟨?_, ?_, ?_, ?_⟩ <;> apply exec_for_all_undef <;> exact ⟨_, rfl, by decide, rfl⟩

/-- C14 (code defect): in the version state the first byte that is not a
digit is consumed by the `version` handler (directive `rv_advance`), so it
never reaches the timestamp token.  From a parser with `error` 0 and an
empty buffer, a token `c :: tl` whose first byte is neither digit nor
whitespace, followed by a space, commits only `tl` as the timestamp; a
token of the single byte `c` commits nothing and leaves the parser in the
timestamp state.  On `Oct SP` the timestamp is `ct`. -/
theorem version_drops_first_byte :
    (∀ (u : Undef) (settings : syslog_parser_settings) (parser : syslog_parser_t) (c : Nat)
      (tl : List Nat),
      parser.state = s_version → parser.error = 0 → parser.buffer.position = 0 →
      parser.buffer.bytes.length = parser.buffer.size → parser.buffer.size ≤ 2147483648 →
      IS_NUM c = false → IS_WS c = false →
      tl ≠ [] → (∀ x ∈ tl, IS_WS x = false) → tl.length < parser.buffer.size →
      ∃ r, uslg_parser_exec (tl.length + 3) u settings parser (c :: (tl ++ [32])) = some r ∧
        r.parser.msg_head.timestamp = some tl ∧ r.parser.msg_head.timestamp_len = tl.length ∧
        r.parser.msg_head.version = parser.msg_head.version ∧
        r.parser.state = s_hostname ∧ r.retval = 0) ∧
    (∀ (u : Undef) (settings : syslog_parser_settings) (parser : syslog_parser_t) (c : Nat),
      parser.state = s_version → parser.error = 0 → IS_NUM c = false → IS_WS c = false →
      ∃ r, uslg_parser_exec 3 u settings parser [c, 32] = some r ∧
        r.parser.msg_head = parser.msg_head ∧ r.parser.state = s_timestamp ∧ r.retval = 0) ∧
    (∀ u : Undef,
      (uslg_parser_exec 5 u settings_zero parser_at_version (ascii "Oct ")).map
          (fun r => (r.retval, r.parser.msg_head.timestamp, r.parser.msg_head.timestamp_len,
            r.parser.msg_head.version, r.parser.state)) =
        some (0, some (ascii "ct"), 2, 0, s_hostname)) := by
  refine ⟨?_, ?_, ?_⟩
  · intro u settings parser c tl hst he hpos hlen hsz hnum hws hne htl hroom
    have hs := not_ws_not_skipped parser c hws
    have hb := loop_body_version_other u settings parser c (tl ++ [32]) u.action0 hst he hnum
    have ll := to_size_to_int tl.length (by omega)
    obtain ⟨q, D, s1, a1, b1, c1, d1, e1, f1⟩ := loop_steps_token_ready u settings s_hostname
      [] tl { parser with state := s_timestamp, token_state := ts_before } rv_advance
      rfl he hne htl hpos hroom (Nat.le_trans hsz (by decide)) hlen
    have e : tl.length + 3 = ((tl.length + 1) + 1) + 1 := by omega
    refine ⟨{ parser := q, events := [], dispatched := ((tl ++ [32]).length + 1, parser.state) :: D },
      ?_, ?_⟩
    · rw [uslg_parser_exec, e, exec_loop_continue _ _ _ _ _ _ _ hs (by rw [hb]), hb]
      simp only []
      rw [show tl.length + 2 = tl.length + 1 + 1 from rfl,
        exec_loop_after_steps u settings 1 _ _ _ _ _ s1]
      simp [exec_loop, exec_result.after_iteration]
    · simp only [exec_result.retval, a1, b1, f1]
      simp [set_str_field, reset_buffer, copy_parser_buffer, copy_pbuffer, ll]
  · intro u settings parser c hst he hnum hws
    have hs := not_ws_not_skipped parser c hws
    have hb := loop_body_version_other u settings parser c [32] u.action0 hst he hnum
    refine ⟨{ parser := { parser with state := s_timestamp, token_state := ts_before },
              events := [], dispatched := [(2, parser.state)] }, ?_, rfl, rfl, ?_⟩
    · have e : (3 : Nat) = 1 + 1 + 1 := rfl
      rw [uslg_parser_exec, e, exec_loop_continue _ _ _ _ _ _ _ hs (by rw [hb]), hb]
      simp only []
      rw [exec_loop_skip _ _ _ _ _ _ _ (by simp [skips])]
      simp [exec_loop, exec_result.after_iteration]
    · simp [exec_result.retval, he]
  · intro u
    apply exec_for_all_undef
    exact ⟨_, rfl, by decide, rfl⟩

/-- Witness of C14: the token `Oct` on the freshly initialised parser put
in the version state. -/
theorem version_drops_first_byte_witness :
    ∃ r, uslg_parser_exec ((ascii "ct").length + 3) undef_advance settings_zero parser_at_version
        (79 :: (ascii "ct" ++ [32])) = some r ∧
      r.parser.msg_head.timestamp = some (ascii "ct") ∧
      r.parser.msg_head.timestamp_len = (ascii "ct").length ∧
      r.parser.msg_head.version = parser_at_version.msg_head.version ∧
      r.parser.state = s_hostname ∧ r.retval = 0 :=
  version_drops_first_byte.1 undef_advance settings_zero parser_at_version 79 (ascii "ct")
    rfl rfl rfl (List.length_replicate _ _) (by decide) (by decide) (by decide) (by decide)
    (by decide) (by decide)

/-- C15 (code defect): in the message-start state a first byte that is a
digit moves the parser to octet-count and is re-presented, but
`F_COUNT_OCTETS` (`1 << 3`) does not fit the three-bit `flags` field, so the
flag is clear afterwards; any other first byte is re-presented to state
`s_priority`, not `s_priority_start`, so that from a parser with `error` 0 a
leading `<` ends the call with error 3 (`SLERR_BAD_PRIORITY`) and no
callback, whatever the callbacks and the indeterminate values are. -/
theorem msg_start_flag_and_priority :
    (∀ (parser : syslog_parser_t) (nb : Nat), IS_NUM nb = true →
      (msg_start parser nb).parser.flags.val &&& F_COUNT_OCTETS = 0 ∧
      (msg_start parser nb).parser.state = s_octet_count ∧
      (msg_start parser nb).action = rv_rehash) ∧
    (∀ (parser : syslog_parser_t) (nb : Nat), IS_NUM nb = false →
      (msg_start parser nb).parser.flags = parser.flags ∧
      (msg_start parser nb).parser.state = s_priority ∧
      (msg_start parser nb).action = rv_rehash) ∧
    (∀ (u : Undef) (settings : syslog_parser_settings) (parser : syslog_parser_t)
      (rest : List Nat) (fuel : Nat),
      parser.state = s_msg_start → parser.error = 0 →
      (uslg_parser_exec (fuel + 2) u settings parser (60 :: rest)).map
          (fun r => (r.retval, r.events, r.parser.state, r.dispatched)) =
        some (3, [], s_priority,
          [(rest.length + 1, s_msg_start), (rest.length + 1, s_priority)])) := by
  refine ⟨?_, ?_, ?_⟩
  · intro parser nb h
    simp [msg_start, h, set_state, set_token_state, flags_never_count_octets]
  · intro parser nb h
    simp [msg_start, h, set_state, set_token_state]
  · intro u settings parser rest fuel hs he
    obtain ⟨fl, ts, st, er, hd, ml, rd, bf⟩ := parser
    simp only at hs he
    subst hs; subst he
    cases ts <;>
      simp [uslg_parser_exec, exec_loop, loop_body, skips, enter_token, dispatch, msg_start,
        IS_NUM, set_state, set_token_state, apply_action, rv_rehash, rv_advance, rv_inc_index,
        priority, to_uchar, SLERR_BAD_PRIORITY, exec_result.retval, exec_result.after_iteration]

/-- Witness of C15: the digit `1` and the byte `<` on the freshly
initialised parser. -/
theorem msg_start_flag_and_priority_witness :
    ((msg_start uslg_parser_init 49).parser.flags.val &&& F_COUNT_OCTETS = 0 ∧
      (msg_start uslg_parser_init 49).parser.state = s_octet_count ∧
      (msg_start uslg_parser_init 49).action = rv_rehash) ∧
    (uslg_parser_exec (0 + 2) undef_advance settings_zero uslg_parser_init
        (60 :: ascii "13>")).map
        (fun r => (r.retval, r.events, r.parser.state, r.dispatched)) =
      some (3, [], s_priority,
        [((ascii "13>").length + 1, s_msg_start), ((ascii "13>").length + 1, s_priority)]) :=
  ⟨msg_start_flag_and_priority.1 uslg_parser_init 49 rfl,
   msg_start_flag_and_priority.2.2 undef_advance settings_zero uslg_parser_init (ascii "13>") 0
     rfl rfl⟩

/-- C16 (code defect): in the octet-count state with declared length 0 and
`error` 0, a string of digits whose decimal value is below 2^64-1 leaves
`error` 0 and the declared length equal to that value; but the guard
`mlength < parser->message_length` misses a product that wraps around to a
value above the old one: the digits `36893488147419103230` (2 * 2^64 - 2,
not representable) are accepted with `error` 0 and leave the declared
length 2^64 - 2.  The digits `18446744073709551615` (2^64 - 1) do raise
`SLERR_BAD_OCTET_COUNT`. -/
theorem octet_count_wrap_accepted :
    (∀ (u : Undef) (settings : syslog_parser_settings) (parser : syslog_parser_t)
      (digits : List Nat),
      parser.state = s_octet_count → parser.error = 0 → parser.message_length = 0 →
      (∀ d ∈ digits, IS_NUM d = true) → decimal_value digits < 2 ^ 64 - 1 →
      ∃ r, uslg_parser_exec (digits.length + 1) u settings parser digits = some r ∧
        r.retval = 0 ∧ r.parser.message_length = decimal_value digits ∧
        r.parser.state = s_octet_count) ∧
    (∀ u : Undef,
      (2 ^ 64 - 1 ≤ decimal_value (ascii "36893488147419103230")) ∧
      (uslg_parser_exec 21 u settings_zero parser_at_octet_count
          (ascii "36893488147419103230")).map
          (fun r => (r.retval, r.parser.message_length, r.parser.state)) =
        some (0, 18446744073709551614, s_octet_count)) ∧
    (∀ u : Undef,
      (uslg_parser_exec 21 u settings_zero parser_at_octet_count
          (ascii "18446744073709551615")).map
          (fun r => (r.retval, r.parser.message_length, r.parser.state)) =
        some (2, 1844674407370955161, s_octet_count)) := by
  refine ⟨?_, ?_, ?_⟩
  · intro u settings parser digits hst he hml hdig hv
    have hv2 : decimal_from parser.message_length digits < ULONG_MAX := by
      rw [hml]; exact hv
    obtain ⟨r, hr, e1, e2, e3, _⟩ :=
      exec_loop_octet_digits u settings digits parser u.action0 hst he hdig hv2
    refine ⟨r, hr, ?_, ?_, e3⟩
    · simp [exec_result.retval, e1]
    · rw [e2, hml]; rfl
  · intro u
    refine ⟨by decide, ?_⟩
    apply exec_for_all_undef
    exact ⟨_, rfl, by decide, rfl⟩
  · intro u
    apply exec_for_all_undef
    exact ⟨_, rfl, by decide, rfl⟩

/-- Witness of C16: the digits `1024` on the freshly initialised parser put
in the octet-count state. -/
theorem octet_count_wrap_accepted_witness :
    ∃ r, uslg_parser_exec ((ascii "1024").length + 1) undef_advance settings_zero
        parser_at_octet_count (ascii "1024") = some r ∧
      r.retval = 0 ∧ r.parser.message_length = decimal_value (ascii "1024") ∧
      r.parser.state = s_octet_count :=
  octet_count_wrap_accepted.1 undef_advance settings_zero parser_at_octet_count (ascii "1024")
    rfl rfl rfl (by decide) (by decide)

/-- C17, as stated, fails: carriage return and line-feed are not skipped.
In the timestamp state with the token state skipping, a lone line-feed is
handed to the handler, which commits an empty timestamp and moves the
parser to the hostname state; a carriage return likewise. -/
theorem cr_lf_are_dispatched :
    (uslg_parser_exec 2 undef_advance settings_zero
        { uslg_parser_init with state := s_timestamp } [10]).map
        (fun r => (r.dispatched, r.parser.state, r.parser.msg_head.timestamp)) =
      some ([(1, s_timestamp)], s_hostname, some []) ∧
    (uslg_parser_exec 2 undef_advance settings_zero
        { uslg_parser_init with state := s_timestamp } [13]).map
        (fun r => (r.dispatched, r.parser.state, r.parser.msg_head.timestamp)) =
      some ([(1, s_timestamp)], s_hostname, some []) := by
  constructor <;> rfl

/-- C17, amended: for every state, when the token state is skipping, a
space or a tab is consumed without being handed to the state handler and
leaves the parser as it is; every other byte, carriage return and line-feed
included, sets the token state to reading and is handed to the handler of
the current state: the loop goes on exactly as from the same parser with
token state reading, and the first dispatch of the run is this byte in the
current state. -/
theorem separators_skipped (u : Undef) (settings : syslog_parser_settings) (fuel : Nat)
    (parser : syslog_parser_t) (c : Nat) (tl : List Nat) (action : Int)
    (hts : parser.token_state = ts_before) :
    ((c = 32 ∨ c = 9) →
      exec_loop u settings (fuel + 1) parser (c :: tl) action =
        exec_loop u settings fuel parser tl action) ∧
    (c ≠ 32 → c ≠ 9 →
      exec_loop u settings (fuel + 1) parser (c :: tl) action =
        exec_loop u settings (fuel + 1) { parser with token_state := ts_read } (c :: tl) action ∧
      ∀ r, exec_loop u settings (fuel + 1) parser (c :: tl) action = some r →
        r.dispatched.head? = some (tl.length + 1, parser.state)) := by
  constructor
  · intro hc
    have hs : skips parser c = true := by
      rcases hc with hc | hc <;> simp [skips, hts, hc]
    exact exec_loop_skip _ _ _ _ _ _ _ hs
  · intro h1 h2
    have hs : skips parser c = false := by simp [skips, h1, h2]
    have hs2 : skips { parser with token_state := ts_read } c = false := by simp [skips]
    have he : enter_token { parser with token_state := ts_read } = enter_token parser := by
      simp [enter_token, hts, set_token_state]
    have hb : loop_body u settings { parser with token_state := ts_read } c tl action =
        loop_body u settings parser c tl action := by
      simp only [loop_body, he]
    constructor
    · by_cases hx : (loop_body u settings parser c tl action).exit_exec = true
      · rw [exec_loop_exit _ _ _ _ _ _ _ hs hx, exec_loop_exit _ _ _ _ _ _ _ hs2 (hb ▸ hx), hb]
      · have hx : (loop_body u settings parser c tl action).exit_exec = false := by
          simpa using hx
        rw [exec_loop_continue _ _ _ _ _ _ _ hs hx,
          exec_loop_continue _ _ _ _ _ _ _ hs2 (hb ▸ hx), hb]
    · intro r hr
      by_cases hx : (loop_body u settings parser c tl action).exit_exec = true
      · rw [exec_loop_exit _ _ _ _ _ _ _ hs hx] at hr
        simp at hr
        subst hr; rfl
      · have hx : (loop_body u settings parser c tl action).exit_exec = false := by
          simpa using hx
        rw [exec_loop_continue _ _ _ _ _ _ _ hs hx] at hr
        obtain ⟨r3, _, hr3⟩ := exec_loop_map_some hr
        subst hr3; rfl

/-- Witness of C17 amended: in the timestamp state with the token state
skipping, the slice `SP x`: the space is skipped, the `x` is the first and
only dispatch. -/
theorem separators_skipped_witness :
    exec_loop undef_advance settings_zero (1 + 1) { uslg_parser_init with state := s_timestamp }
        (32 :: [120]) rv_advance =
      exec_loop undef_advance settings_zero 1 { uslg_parser_init with state := s_timestamp }
        [120] rv_advance ∧
    ∀ r, exec_loop undef_advance settings_zero (1 + 1)
        { uslg_parser_init with state := s_timestamp } (120 :: []) rv_advance = some r →
      r.dispatched.head? = some (([] : List Nat).length + 1, s_timestamp) :=
  ⟨(separators_skipped undef_advance settings_zero 1 { uslg_parser_init with state := s_timestamp }
      32 [120] rv_advance rfl).1 (Or.inl rfl),
   ((separators_skipped undef_advance settings_zero 1
      { uslg_parser_init with state := s_timestamp } 120 [] rv_advance rfl).2
      (by decide) (by decide)).2⟩

set_option maxRecDepth 4000 in
/-- C18, as stated, fails: the closing `]` of a structured-data element
sends the parser back to structured-data-start, whose handler fires
head-complete again.  With callbacks returning 0, the message
`<13>1 t h a p m [id ] body LF` read from the priority-start state fires
head-complete twice before the body chunk, and the structured data
`[a x="1"][b y="2"] body LF` read from structured-data-start fires it three
times. -/
theorem head_complete_fired_again :
    (∃ r, uslg_parser_exec 40 undef_advance settings_zero parser_at_priority_start
        (ascii "<13>1 t h a p m [id ] body\n") = some r ∧
      r.retval = 0 ∧
      r.events = [Event.msg_head r.parser.msg_head, Event.sd_element (ascii "id"),
        Event.sd_field (ascii "id"), Event.msg_head r.parser.msg_head,
        Event.msg (ascii "body")] ∧
      r.parser.msg_head.msgid = some (ascii "m") ∧
      head_complete_count r.events = 2) ∧
    (uslg_parser_exec 40 undef_advance settings_zero parser_at_sd_start
        (ascii "[a x=\"1\"][b y=\"2\"] body\n")).map
        (fun r => (r.retval, head_complete_count r.events, r.events.getLast?)) =
      some (0, 3, some (Event.msg (ascii "body"))) :=
  ⟨⟨_, rfl, rfl, rfl, rfl, rfl⟩, rfl⟩

/-- C18, amended: in every run of `uslg_parser_exec` the head-complete
event is fired exactly once for each byte handed to the structured-data-start
handler, and never otherwise; the closing `]` of a structured-data element
sends the parser back to structured-data-start.  So, with callbacks
returning 0: a message without structured-data elements has head-complete
fired exactly once between the msg-id commit and the first body chunk, and
after the closing `]` of an element head-complete is fired once more before
the body chunk. -/
theorem head_complete_per_sd_start :
    (∀ (u : Undef) (settings : syslog_parser_settings) (fuel : Nat) (parser : syslog_parser_t)
      (data : List Nat) (r : exec_result),
      uslg_parser_exec fuel u settings parser data = some r →
      head_complete_count r.events = sd_start_dispatches r.dispatched) ∧
    (∀ (parser : syslog_parser_t) (settings : syslog_parser_settings),
      (sd_field parser settings 93).parser.state = s_sd_start) ∧
    (∀ (u : Undef) (parser : syslog_parser_t) (b : List Nat) (fuel : Nat),
      parser.state = s_sd_start → 10 ∉ b →
      (∀ c ∈ b.head?, c ≠ 32 ∧ c ≠ 9 ∧ c ≠ 45 ∧ c ≠ 91) →
      ∃ r, uslg_parser_exec (fuel + 3) u settings_zero parser (b ++ [10]) = some r ∧
        r.events = [Event.msg_head parser.msg_head, Event.msg b] ∧ r.retval = 0) ∧
    (∀ (u : Undef) (parser : syslog_parser_t) (b : List Nat) (fuel : Nat),
      parser.state = s_sd_field → parser.error = 0 → 10 ∉ b →
      (∀ c ∈ b.head?, c ≠ 32 ∧ c ≠ 9 ∧ c ≠ 45 ∧ c ≠ 91) →
      ∃ r, uslg_parser_exec (fuel + 5) u settings_zero parser (93 :: 32 :: (b ++ [10])) = some r ∧
        r.events = [Event.sd_field (on_data_payload parser), Event.msg_head parser.msg_head,
          Event.msg b] ∧
        r.retval = 0) := by
  refine ⟨?_, ?_, ?_, ?_⟩
  · intro u settings fuel parser data r h
    exact exec_loop_head_count u settings fuel parser data u.action0 r h
  · intro parser settings
    have h93 : IS_ALPHANUM 93 = false := by decide
    simp [sd_field, h93, set_state, set_token_state]
  · intro u parser b fuel hstate hlf hfirst
    obtain ⟨r, h1, h2, h3, _⟩ := exec_loop_sd_start_line u parser b u.action0 fuel hstate hlf hfirst
    exact ⟨r, h1, h2, by simp [exec_result.retval, h3]⟩
  · intro u parser b fuel hstate he hlf hfirst
    have hs : skips parser 93 = false := by simp [skips]
    have hb := loop_body_sd_close u parser (32 :: (b ++ [10])) u.action0 hstate he
    obtain ⟨r, h1, h2, h3, _⟩ := exec_loop_sd_start_line u
      (set_state (enter_token parser) s_sd_start) b rv_advance fuel rfl hlf hfirst
    refine ⟨exec_result.after_iteration [Event.sd_field (on_data_payload parser)]
      ((32 :: (b ++ [10])).length + 1, parser.state) r, ?_, ?_, ?_⟩
    · have e : fuel + 5 = ((fuel + 3) + 1) + 1 := by omega
      rw [uslg_parser_exec, e, exec_loop_continue _ _ _ _ _ _ _ hs (by rw [hb]), hb]
      simp only []
      rw [exec_loop_skip _ _ _ _ _ _ _ (by simp [skips, set_state, set_token_state]), h1]
      rfl
    · simp [exec_result.after_iteration, h2, set_state, set_token_state, enter_token]
      split <;> rfl
    · simpa [exec_result.retval, exec_result.after_iteration] using h3

/-- Witness of C18 amended: the freshly initialised parser put in the
structured-data-field state, fed the closing bracket, a space and the body
line `body`. -/
theorem head_complete_per_sd_start_witness :
    ∃ r, uslg_parser_exec (0 + 5) undef_advance settings_zero
        { uslg_parser_init with state := s_sd_field } (93 :: 32 :: (ascii "body" ++ [10])) =
        some r ∧
      r.events = [Event.sd_field (on_data_payload { uslg_parser_init with state := s_sd_field }),
        Event.msg_head ({ uslg_parser_init with state := s_sd_field } : syslog_parser_t).msg_head,
        Event.msg (ascii "body")] ∧
      r.retval = 0 :=
  head_complete_per_sd_start.2.2.2 undef_advance { uslg_parser_init with state := s_sd_field }
    (ascii "body") 0 rfl rfl (by decide) (by decide)

/-- C19 (code defect): in the structured-data-value state a backslash sets
the escape flag and stores nothing; a quote met with the flag set is not
appended to the accumulated value and leaves the parser exactly as it was,
the flag still set; so from then on no byte, and in particular no later
quote, fires value-identified or leaves the state, for any callbacks and any
indeterminate return values.  On the bytes `a\"b"` the accumulated value is
`ab`, without the quote, and the closing quote is swallowed. -/
theorem escaped_quote_dropped :
    (∀ (u : Undef) (settings : syslog_parser_settings) (parser : syslog_parser_t),
      (sd_value u parser settings 92).parser.buffer = parser.buffer ∧
      (sd_value u parser settings 92).parser.flags.val &&& F_ESCAPED ≠ 0 ∧
      (sd_value u parser settings 92).events = []) ∧
    (∀ (u : Undef) (settings : syslog_parser_settings) (parser : syslog_parser_t),
      parser.flags.val &&& F_ESCAPED ≠ 0 →
      (sd_value u parser settings 34).parser = parser ∧
      (sd_value u parser settings 34).events = []) ∧
    (∀ (u : Undef) (settings : syslog_parser_settings) (fuel : Nat) (parser : syslog_parser_t)
      (data : List Nat) (action : Int) (r : exec_result),
      parser.state = s_sd_value → parser.flags.val &&& F_ESCAPED ≠ 0 →
      exec_loop u settings fuel parser data action = some r →
      r.events = [] ∧ r.parser.state = s_sd_value) ∧
    (uslg_parser_exec 6 undef_advance settings_zero parser_at_sd_value [97, 92, 34, 98, 34]).map
        (fun r => (r.retval, r.events, r.parser.state, on_data_payload r.parser,
          r.dispatched.length)) =
      some (0, [], s_sd_value, [97, 98], 5) := by
  refine ⟨?_, ?_, ?_, rfl⟩
  · intro u settings parser
    simp [sd_value, flags_escaped_set]
  · intro u settings parser h
    simp [sd_value, h, flags_escaped_again]
  · intro u settings fuel parser data action r h1 h2 h
    have := exec_loop_quiet u settings
      (fun p => p.state = s_sd_value ∧ p.flags.val &&& F_ESCAPED ≠ 0)
      (fun p c tl a hp => loop_body_escaped u settings p c tl a hp) fuel parser data action r
      ⟨h1, h2⟩ h
    exact ⟨this.2, this.1.1⟩

/-- Witness of C19: a quote handed to `sd_value` with the escape flag set. -/
theorem escaped_quote_dropped_witness :
    (sd_value undef_advance { parser_at_sd_value with flags := 4 } settings_zero 34).parser =
        { parser_at_sd_value with flags := 4 } ∧
      (sd_value undef_advance { parser_at_sd_value with flags := 4 } settings_zero 34).events = [] :=
  escaped_quote_dropped.2.1 undef_advance settings_zero { parser_at_sd_value with flags := 4 }
    (by decide)

end USyslog
